import Mathlib

/-!
# Dream Kite: string and string-health model

A shallow embedding of `src/js/ui/health.js`, `src/js/string.js`,
`src/js/procedural/wind.js`, `src/js/controls.js`, and the parts of `src/js/kite.js`,
`src/js/objects/obstacles.js` and `src/js/game.js` the claims are about.

JavaScript numbers are modelled by an arbitrary linearly ordered field `α`
(exact arithmetic; instantiate with `ℚ` to evaluate, with `ℝ` for square roots).
Module-level variables become fields of an explicit state record, and every
function that mutates them returns the new state (paired with its JavaScript
return value when it has one).
-/

namespace DreamKite

/-! ## Vectors (`CANNON.Vec3` / `THREE.Vector3`) -/

/-- A three-component vector, as `CANNON.Vec3` and `THREE.Vector3`. -/
structure Vec3 (α : Type) where
  x : α
  y : α
  z : α
  deriving DecidableEq, Repr

section Health

variable {α : Type} [LinearOrderedField α]

/-! ## `src/js/ui/health.js` -/

/-- Models `const MAX_HEALTH = 100;` -/
def MAX_HEALTH : α := 100

/-- Models `const CRITICAL_HEALTH_THRESHOLD = 30;` -/
def CRITICAL_HEALTH_THRESHOLD : α := 30

/-- The three backgrounds `updateHealthColor` chooses between. -/
inductive HealthColor where
  | critical
  | caution
  | good
  deriving DecidableEq, Repr

/-- The module state of `health.js` together with what its functions write to the page
and the number of times `gameOver()` (of `game.js`) has been called. -/
structure HealthState (α : Type) where
  /-- Models `let currentHealth` -/
  currentHealth : α
  /-- Models `let isAnimatingDamage` -/
  isAnimatingDamage : Bool
  /-- Models `healthFill.style.width`, in percent -/
  fillWidth : α
  /-- Models `healthFill.style.background` -/
  fillColor : HealthColor
  /-- whether `string-health-container` carries the class `warning` -/
  warning : Bool
  /-- whether `string-health-bar` carries the class `shake` -/
  shake : Bool
  /-- whether `string-health-bar` carries the class `glow` -/
  glow : Bool
  /-- number of `gameOver()` calls made so far -/
  gameOverCalls : Nat

/-- The state when the script has loaded: `currentHealth = MAX_HEALTH`,
`isAnimatingDamage = false`, nothing written to the page, no `gameOver()` call. -/
def initialHealth : HealthState α :=
  { currentHealth := MAX_HEALTH
    isAnimatingDamage := false
    fillWidth := MAX_HEALTH
    fillColor := HealthColor.good
    warning := false
    shake := false
    glow := false
    gameOverCalls := 0 }

/-- Models `gameOver()` of `game.js`, seen from `health.js`: one more game-over event. -/
def gameOver (s : HealthState α) : HealthState α :=
  { s with gameOverCalls := s.gameOverCalls + 1 }

/-- Models `updateHealthColor(health)` -/
def updateHealthColor (health : α) (s : HealthState α) : HealthState α :=
  if health ≤ 20 then { s with fillColor := HealthColor.critical }
  else if health ≤ 50 then { s with fillColor := HealthColor.caution }
  else { s with fillColor := HealthColor.good }

/-- Models `showLowHealthWarning()` -/
def showLowHealthWarning (s : HealthState α) : HealthState α :=
  if !s.warning then { s with warning := true } else s

/-- Models `hideLowHealthWarning()` -/
def hideLowHealthWarning (s : HealthState α) : HealthState α :=
  { s with warning := false }

/-- Models `updateHealthBar(health)` -/
def updateHealthBar (health : α) (s : HealthState α) : HealthState α :=
  let s1 := { s with currentHealth := max 0 (min MAX_HEALTH health) }
  let s2 := { s1 with fillWidth := s1.currentHealth }
  let s3 := updateHealthColor s2.currentHealth s2
  let s4 :=
    if s3.currentHealth ≤ CRITICAL_HEALTH_THRESHOLD then showLowHealthWarning s3
    else hideLowHealthWarning s3
  if s4.currentHealth ≤ 0 then gameOver s4 else s4

/-- Models `animateDamage()`; the timer that later clears the flag and the class is not part of
the synchronous call. -/
def animateDamage (s : HealthState α) : HealthState α :=
  if s.isAnimatingDamage then s
  else { s with isAnimatingDamage := true, shake := true }

/-- Models `animateRepair()`; the timer that later removes the class is not part of the
synchronous call. -/
def animateRepair (s : HealthState α) : HealthState α :=
  { s with glow := true }

/-- Models `damageString(damageAmount)`: the new state and the returned `newHealth`. -/
def damageString (damageAmount : α) (s : HealthState α) : HealthState α × α :=
  let newHealth := max 0 (s.currentHealth - damageAmount)
  let s1 := animateDamage s
  let s2 := updateHealthBar newHealth s1
  (s2, newHealth)

/-- Models `repairString(repairAmount)`: the new state and the returned `newHealth`. -/
def repairString (repairAmount : α) (s : HealthState α) : HealthState α × α :=
  let newHealth := min MAX_HEALTH (s.currentHealth + repairAmount)
  let s1 := animateRepair s
  let s2 := updateHealthBar newHealth s1
  (s2, newHealth)

/-- One call into the health module. -/
inductive HealthCall (α : Type) where
  | updateHealthBar (health : α)
  | damageString (damageAmount : α)
  | repairString (repairAmount : α)

/-- The state after one call. -/
def HealthCall.run : HealthCall α → HealthState α → HealthState α
  | .updateHealthBar h, s => DreamKite.updateHealthBar h s
  | .damageString a, s => (DreamKite.damageString a s).1
  | .repairString a, s => (DreamKite.repairString a s).1

/-- The state after a sequence of calls, made in order. -/
def runHealthCalls : List (HealthCall α) → HealthState α → HealthState α
  | [], s => s
  | c :: cs, s => runHealthCalls cs (c.run s)

/-- The state after a sequence of `damageString` calls, made in order. -/
def runDamage : List α → HealthState α → HealthState α
  | [], s => s
  | a :: as, s => runDamage as (damageString a s).1

/-- The stored health after each call of a sequence of `damageString` calls. -/
def damageTrace : List α → HealthState α → List α
  | [], _ => []
  | a :: as, s => (damageString a s).1.currentHealth :: damageTrace as (damageString a s).1

/-- The range `[0, MAX_HEALTH]` of the stored health. -/
def HealthInRange (s : HealthState α) : Prop :=
  0 ≤ s.currentHealth ∧ s.currentHealth ≤ MAX_HEALTH

end Health

section StringModel

variable {α : Type} [LinearOrderedField α]

/-! ## The parts of `CANNON.Vec3` that `string.js` calls

cannon.js is a library and not part of the repository; its vector methods are written
out here, with `Math.sqrt` taken as the argument `sqrt`. -/

/-- Models `a.vsub(b)`: the componentwise difference `a - b`. -/
def Vec3.vsub (a b : Vec3 α) : Vec3 α :=
  ⟨a.x - b.x, a.y - b.y, a.z - b.z⟩

/-- Models `v.scale(k)`: every component multiplied by `k`. -/
def Vec3.scale (v : Vec3 α) (k : α) : Vec3 α :=
  ⟨k * v.x, k * v.y, k * v.z⟩

/-- Models `v.length()`: `Math.sqrt(x*x + y*y + z*z)`. -/
def Vec3.length (sqrt : α → α) (v : Vec3 α) : α :=
  sqrt (v.x * v.x + v.y * v.y + v.z * v.z)

/-- Models `v.distanceTo(p)`: `Math.sqrt((px-x)*(px-x) + (py-y)*(py-y) + (pz-z)*(pz-z))`. -/
def Vec3.distanceTo (sqrt : α → α) (v p : Vec3 α) : α :=
  sqrt ((p.x - v.x) * (p.x - v.x) + (p.y - v.y) * (p.y - v.y) + (p.z - v.z) * (p.z - v.z))

/-- Models `v.normalize()`: divides by the length when it is positive, otherwise gives the
zero vector. -/
def Vec3.normalize (sqrt : α → α) (v : Vec3 α) : Vec3 α :=
  let n := Vec3.length sqrt v
  if 0 < n then ⟨v.x * (1 / n), v.y * (1 / n), v.z * (1 / n)⟩ else ⟨0, 0, 0⟩

/-! ## `src/js/string.js` -/

/-- Models `const STRING_SEGMENTS = 10;` -/
def STRING_SEGMENTS : Nat := 10

/-- Models `const MAX_STRING_LENGTH = 30;` -/
def MAX_STRING_LENGTH : α := 30

/-- Models `const MIN_STRING_LENGTH = 5;` -/
def MIN_STRING_LENGTH : α := 5

/-- Models `const BASE_STRING_LENGTH = 15;` -/
def BASE_STRING_LENGTH : α := 15

/-- Models `const STRING_TENSION_THRESHOLD = 20;` -/
def STRING_TENSION_THRESHOLD : α := 20

/-- The numeric content of the `string` object built by `createString`. The line mesh
and its material colour are rendering output only and are left out. -/
structure StringState (α : Type) where
  /-- Models `string.constraint.distance` -/
  constraintDistance : α
  /-- Models `string.anchorBody.position` -/
  anchorPos : Vec3 α
  /-- Models `string.points` -/
  points : List (Vec3 α)
  /-- Models `string.length` -/
  length : α
  /-- Models `string.tension` -/
  tension : α
  /-- Models `string.tugForce` -/
  tugForce : Vec3 α

/-- Models `createString(kiteBody, anchorPoint)`: the freshly built string. -/
def createString (anchorPoint : Vec3 α) : StringState α :=
  { constraintDistance := BASE_STRING_LENGTH
    anchorPos := anchorPoint
    points := List.replicate STRING_SEGMENTS ⟨0, 0, 0⟩
    length := BASE_STRING_LENGTH
    tension := 0
    tugForce := ⟨0, 0, 0⟩ }

/-- Models `updateConstraintLength(string)` -/
def updateConstraintLength (string : StringState α) : StringState α :=
  if string.constraintDistance ≠ string.length then
    { string with constraintDistance := string.length }
  else string

/-- Models `calculateStringTension(string, kiteBody)`, with `kitePos = kiteBody.position`. -/
def calculateStringTension (sqrt : α → α) (string : StringState α) (kitePos : Vec3 α) : α :=
  let anchorPos := string.anchorPos
  let distance := Vec3.distanceTo sqrt kitePos anchorPos
  let tension := max 0 ((distance - string.length) * 10)
  let tugTension := Vec3.length sqrt string.tugForce
  tension + tugTension

/-- Models `applyTugForce(string, kiteBody)`: the force handed to `kiteBody.applyForce` (at the
kite position), or `none` when no force is applied. -/
def applyTugForce (sqrt : α → α) (string : StringState α) (kitePos : Vec3 α) :
    Option (Vec3 α) :=
  if Vec3.length sqrt string.tugForce > 0 then
    let direction := Vec3.normalize sqrt (Vec3.vsub string.anchorPos kitePos)
    some (Vec3.scale direction (Vec3.length sqrt string.tugForce))
  else none

/-- The body of the loop of `updateStringVisual` for index `i`: the point `(x, y, z)`
stored into `string.points[i]`. -/
def stringPoint (string : StringState α) (kitePos : Vec3 α) (i : Nat) : Vec3 α :=
  let anchorPos := string.anchorPos
  let t : α := (i : α) / ((STRING_SEGMENTS : α) - 1)
  let x := anchorPos.x + t * (kitePos.x - anchorPos.x)
  let z := anchorPos.z + t * (kitePos.z - anchorPos.z)
  let stringTightness := min 1 (string.tension / 5)
  let sag := (1 - stringTightness) * 2
  let linearY := anchorPos.y + t * (kitePos.y - anchorPos.y)
  let sagFactor := t * (1 - t)
  let y := linearY - (sagFactor * sag)
  ⟨x, y, z⟩

/-- Models `updateStringVisual(string, kiteBody)`: the loop `for (i = 0; i < STRING_SEGMENTS; i++)`
overwrites `string.points[i]` in turn. -/
def updateStringVisual (string : StringState α) (kitePos : Vec3 α) : StringState α :=
  { string with
    points := (List.range STRING_SEGMENTS).foldl
      (fun pts i => pts.set i (stringPoint string kitePos i)) string.points }

/-- What one `updateString` call leaves behind: the string, the force handed to the kite
body (if any) and the health module state. -/
structure TickResult (α : Type) where
  string : StringState α
  appliedForce : Option (Vec3 α)
  health : HealthState α

/-- Models `updateString(string, kiteBody, deltaTime)`, with `kitePos = kiteBody.position`. -/
def updateString (sqrt : α → α) (string : StringState α) (kitePos : Vec3 α)
    (_deltaTime : α) (health : HealthState α) : TickResult α :=
  let s1 := updateConstraintLength string
  let s2 := { s1 with tension := calculateStringTension sqrt s1 kitePos }
  let force := applyTugForce sqrt s2 kitePos
  let s3 := updateStringVisual s2 kitePos
  if s3.tension > STRING_TENSION_THRESHOLD then
    let damageAmount := (s3.tension - STRING_TENSION_THRESHOLD) * 0.1
    { string := s3, appliedForce := force, health := (damageString damageAmount health).1 }
  else
    { string := s3, appliedForce := force, health := health }

/-- Models `setStringTugForce(string, tugVector)` -/
def setStringTugForce (string : StringState α) (tugVector : Vec3 α) : StringState α :=
  { string with tugForce := ⟨tugVector.x, tugVector.y, tugVector.z⟩ }

/-- Models `extendString(string, amount)`: the new string and the returned length. -/
def extendString (string : StringState α) (amount : α) : StringState α × α :=
  let s1 := { string with length := min MAX_STRING_LENGTH (string.length + amount) }
  (s1, s1.length)

/-- Models `shortenString(string, amount)`: the new string and the returned length. -/
def shortenString (string : StringState α) (amount : α) : StringState α × α :=
  let s1 := { string with length := max MIN_STRING_LENGTH (string.length - amount) }
  (s1, s1.length)

/-- One call that changes the string length. -/
inductive LengthCall (α : Type) where
  | extendString (amount : α)
  | shortenString (amount : α)

/-- The amount a call carries. -/
def LengthCall.amount : LengthCall α → α
  | .extendString a => a
  | .shortenString a => a

/-- The string after one call. -/
def LengthCall.run : LengthCall α → StringState α → StringState α
  | .extendString a, s => (DreamKite.extendString s a).1
  | .shortenString a, s => (DreamKite.shortenString s a).1

/-- The string after a sequence of calls, made in order. -/
def runLengthCalls : List (LengthCall α) → StringState α → StringState α
  | [], s => s
  | c :: cs, s => runLengthCalls cs (c.run s)

/-- The range `[MIN_STRING_LENGTH, MAX_STRING_LENGTH]` of the string length. -/
def LengthInRange (s : StringState α) : Prop :=
  MIN_STRING_LENGTH ≤ s.length ∧ s.length ≤ MAX_STRING_LENGTH

end StringModel

section WindModel

variable {α : Type} [LinearOrderedField α]

/-! ## `src/js/procedural/wind.js`

`Math.sqrt`, `Math.sin`, `Math.cos` and `Math.PI` are taken as the arguments `sqrt`,
`sin`, `cos` and `pi`; every `Math.random()` result is an explicit input. The wind
particles are visual output only and are left out. -/

/-- A `{ min, max }` pair, as `GUST_DURATION_RANGE` and `GUST_STRENGTH_RANGE`. -/
structure NumRange (α : Type) where
  min : α
  max : α

/-- Models `const BASE_WIND_STRENGTH = 5;` -/
def BASE_WIND_STRENGTH : α := 5

/-- Models `const WIND_VARIATION_SPEED = 0.5;` -/
def WIND_VARIATION_SPEED : α := 0.5

/-- Models `const GUST_PROBABILITY = 0.005;` -/
def GUST_PROBABILITY : α := 0.005

/-- Models `const GUST_DURATION_RANGE = { min: 1, max: 3 };` -/
def GUST_DURATION_RANGE : NumRange α := ⟨1, 3⟩

/-- Models `const GUST_STRENGTH_RANGE = { min: 2, max: 8 };` -/
def GUST_STRENGTH_RANGE : NumRange α := ⟨2, 8⟩

/-- Models `windSystem.base`. -/
structure WindBase (α : Type) where
  strength : α
  direction : Vec3 α

/-- Models `windSystem.variation`. -/
structure WindVariation (α : Type) where
  time : α
  noiseOffsetX : α
  noiseOffsetY : α
  noiseOffsetZ : α

/-- Models `windSystem.gust`. The field `duration` does not exist before the first
`startNewGust` call; it is only read while the gust is active. -/
structure Gust (α : Type) where
  active : Bool
  strength : α
  direction : Vec3 α
  timeRemaining : α
  transitionIn : α
  transitionOut : α
  duration : α

/-- Models `windSystem`. -/
structure WindSystem (α : Type) where
  current : Vec3 α
  target : Vec3 α
  base : WindBase α
  variation : WindVariation α
  gust : Gust α
  difficulty : α

/-- The value of `windSystem` when the script has loaded; `r1`, `r2`, `r3` are the three
`Math.random()` results behind the noise offsets. -/
def initialWindSystem (r1 r2 r3 : α) : WindSystem α :=
  { current := ⟨0, 0, -BASE_WIND_STRENGTH⟩
    target := ⟨0, 0, -BASE_WIND_STRENGTH⟩
    base := { strength := BASE_WIND_STRENGTH, direction := ⟨0, 0, -1⟩ }
    variation :=
      { time := 0
        noiseOffsetX := r1 * 1000
        noiseOffsetY := r2 * 1000
        noiseOffsetZ := r3 * 1000 }
    gust :=
      { active := false
        strength := 0
        direction := ⟨0, 0, 0⟩
        timeRemaining := 0
        transitionIn := 0.5
        transitionOut := 0.8
        duration := 0 }
    difficulty := 0 }

/-- The local `gustFactor` of `updateWindTarget` (computed when the gust is active). -/
def gustFactor (gust : Gust α) : α :=
  if gust.timeRemaining > (gust.duration - gust.transitionIn) then
    min 1 ((gust.duration - gust.timeRemaining) / gust.transitionIn)
  else if gust.timeRemaining < gust.transitionOut then
    gust.timeRemaining / gust.transitionOut
  else 1

/-- Models `updateWindTarget()` -/
def updateWindTarget (w : WindSystem α) : WindSystem α :=
  let base := w.base
  let gust := w.gust
  let baseVector : Vec3 α :=
    ⟨base.direction.x * base.strength, base.direction.y * base.strength,
      base.direction.z * base.strength⟩
  let baseVector : Vec3 α :=
    if gust.active then
      ⟨baseVector.x + gust.direction.x * gust.strength * gustFactor gust,
        baseVector.y + gust.direction.y * gust.strength * gustFactor gust,
        baseVector.z + gust.direction.z * gust.strength * gustFactor gust⟩
    else baseVector
  { w with target := baseVector }

/-- Models `setBaseWindDirection(horizontalAngle, verticalAngle)` -/
def setBaseWindDirection (sqrt sin cos : α → α) (pi : α) (horizontalAngle verticalAngle : α)
    (w : WindSystem α) : WindSystem α :=
  let hRad := horizontalAngle * pi / 180
  let vRad := verticalAngle * pi / 180
  let direction : Vec3 α := ⟨sin hRad * cos vRad, sin vRad, -cos hRad * cos vRad⟩
  let length :=
    sqrt (direction.x * direction.x + direction.y * direction.y + direction.z * direction.z)
  let direction : Vec3 α := ⟨direction.x / length, direction.y / length, direction.z / length⟩
  updateWindTarget { w with base := { w.base with direction := direction } }

/-- The noise offsets `(variationX, variationY, variationZ) * variationStrength` that
`updateWindVariations` adds to the base wind vector. -/
def windVariationVector (sin cos : α → α) (variation : WindVariation α) (difficulty : α) :
    Vec3 α :=
  let time := variation.time
  let offsetX := variation.noiseOffsetX
  let offsetY := variation.noiseOffsetY
  let offsetZ := variation.noiseOffsetZ
  let variationX := sin (time * 0.3 + offsetX) * cos (time * 0.7 + offsetY) * 0.5
  let variationY := sin (time * 0.4 + offsetY) * cos (time * 0.6 + offsetZ) * 0.3
  let variationZ := sin (time * 0.5 + offsetZ) * cos (time * 0.5 + offsetX) * 0.4
  let variationStrength := 1.0 + difficulty * 0.5
  ⟨variationX * variationStrength, variationY * variationStrength,
    variationZ * variationStrength⟩

/-- Models `updateWindVariations(deltaTime)` -/
def updateWindVariations (sin cos : α → α) (_deltaTime : α) (w : WindSystem α) :
    WindSystem α :=
  let v := windVariationVector sin cos w.variation w.difficulty
  let direction := w.base.direction
  let strength := w.base.strength
  let baseVector : Vec3 α :=
    ⟨direction.x * strength + v.x, direction.y * strength + v.y, direction.z * strength + v.z⟩
  if !w.gust.active then { w with target := baseVector } else w

/-- The `Math.random()` results one `updateWindGusts` call may consume, in call order:
the gust-start test, then (inside `startNewGust`) duration, strength and the three
direction perturbations. -/
structure GustDraws (α : Type) where
  start : α
  duration : α
  strength : α
  dirX : α
  dirY : α
  dirZ : α

/-- Models `startNewGust(difficulty)` -/
def startNewGust (sqrt : α → α) (draws : GustDraws α) (difficulty : α) (w : WindSystem α) :
    WindSystem α :=
  let minDuration : α := (GUST_DURATION_RANGE : NumRange α).min
  let maxDuration : α := (GUST_DURATION_RANGE : NumRange α).max
  let duration := minDuration + draws.duration * (maxDuration - minDuration)
  let minStrength : α := (GUST_STRENGTH_RANGE : NumRange α).min * (1 + difficulty * 0.5)
  let maxStrength : α := (GUST_STRENGTH_RANGE : NumRange α).max * (1 + difficulty * 0.5)
  let strength := minStrength + draws.strength * (maxStrength - minStrength)
  let baseDir := w.base.direction
  let variation := 0.3 + difficulty * 0.2
  let direction : Vec3 α :=
    ⟨baseDir.x + (draws.dirX * 2 - 1) * variation,
      baseDir.y + (draws.dirY * 2 - 1) * variation,
      baseDir.z + (draws.dirZ * 2 - 1) * variation⟩
  updateWindTarget
    { w with
      gust :=
        { w.gust with
          active := true
          duration := duration
          timeRemaining := duration
          strength := strength
          direction := Vec3.normalize sqrt direction } }

/-- Models `updateWindGusts(deltaTime, difficulty)` -/
def updateWindGusts (sqrt : α → α) (draws : GustDraws α) (deltaTime difficulty : α)
    (w : WindSystem α) : WindSystem α :=
  if w.gust.active then
    let w1 := { w with gust := { w.gust with timeRemaining := w.gust.timeRemaining - deltaTime } }
    if w1.gust.timeRemaining ≤ 0 then
      updateWindTarget { w1 with gust := { w1.gust with active := false } }
    else
      updateWindTarget w1
  else
    let gustProbability := GUST_PROBABILITY * (1 + difficulty)
    if draws.start < gustProbability then startNewGust sqrt draws difficulty w else w

/-- Models `updateWind(deltaTime, gameTime, difficulty)` -/
def updateWind (sqrt sin cos : α → α) (draws : GustDraws α)
    (deltaTime _gameTime difficulty : α) (w : WindSystem α) : WindSystem α :=
  let w1 :=
    { w with
      variation := { w.variation with time := w.variation.time + deltaTime * WIND_VARIATION_SPEED }
      difficulty := difficulty }
  let w2 := updateWindVariations sin cos deltaTime w1
  let w3 := updateWindGusts sqrt draws deltaTime difficulty w2
  let lerpFactor : α := 0.1
  { w3 with
    current :=
      ⟨w3.current.x + (w3.target.x - w3.current.x) * lerpFactor,
        w3.current.y + (w3.target.y - w3.current.y) * lerpFactor,
        w3.current.z + (w3.target.z - w3.current.z) * lerpFactor⟩ }

/-- Models `getCurrentWind()` -/
def getCurrentWind (w : WindSystem α) : Vec3 α :=
  ⟨w.current.x, w.current.y, w.current.z⟩

/-- A wind system in the middle of a gust (duration 2, 1.5 s remaining), with noise
offsets chosen so that the noise at phase 0.5 is `(0.5, 0, 0)`; `pi` stands for `Math.PI`. -/
def gustyWindSystem (pi : α) : WindSystem α :=
  { current := ⟨0, 0, -5⟩
    target := ⟨0, 0, -5⟩
    base := { strength := 5, direction := ⟨0, 0, -1⟩ }
    variation :=
      { time := 0
        noiseOffsetX := pi / 2 - 0.15
        noiseOffsetY := 2 * pi - 0.35
        noiseOffsetZ := 0 }
    gust :=
      { active := true
        strength := 4
        direction := ⟨0, 0, -1⟩
        timeRemaining := 1.5
        transitionIn := 0.5
        transitionOut := 0.8
        duration := 2 }
    difficulty := 0 }

/-- A gust of the shortest duration (1 s) with the transition times of the wind system. -/
def shortGust : Gust α :=
  { active := true
    strength := 4
    direction := ⟨0, 0, -1⟩
    timeRemaining := 1
    transitionIn := 0.5
    transitionOut := 0.8
    duration := 1 }

end WindModel

section ControlsModel

variable {α : Type} [LinearOrderedField α]

/-! ## `src/js/controls.js` -/

/-- Models `const MAX_TUG_FORCE = 10;` -/
def MAX_TUG_FORCE : α := 10

/-- Models `const KEYBOARD_FORCE_INCREMENT = 0.5;` -/
def KEYBOARD_FORCE_INCREMENT : α := 0.5

/-- Models `const MOUSE_SENSITIVITY = 0.01;` -/
def MOUSE_SENSITIVITY : α := 0.01

/-- Models `controlState.desktop.keys`. -/
structure KeyState where
  up : Bool
  down : Bool
  left : Bool
  right : Bool
  deriving DecidableEq, Repr

/-- Models `controlState.desktop`. -/
structure DesktopState (α : Type) where
  mouseDown : Bool
  mouseStartX : α
  mouseStartY : α
  currentX : α
  currentY : α
  keys : KeyState

/-- Models `controlState.mobile.joystickData.vector`. -/
structure JoystickVector (α : Type) where
  x : α
  y : α

/-- Models `controlState.mobile.joystickData`. -/
structure JoystickData (α : Type) where
  angle : α
  force : α
  vector : JoystickVector α

/-- Models `controlState.mobile`; `hasJoystick` tells whether `joystick` is non-null. -/
structure MobileState (α : Type) where
  hasJoystick : Bool
  joystickData : JoystickData α

/-- Models `controlState`. -/
structure ControlState (α : Type) where
  desktop : DesktopState α
  mobile : MobileState α
  tugForce : Vec3 α

/-- The value of `controlState` when the script has loaded. -/
def initialControlState : ControlState α :=
  { desktop :=
      { mouseDown := false, mouseStartX := 0, mouseStartY := 0, currentX := 0, currentY := 0
        keys := { up := false, down := false, left := false, right := false } }
    mobile :=
      { hasJoystick := false, joystickData := { angle := 0, force := 0, vector := ⟨0, 0⟩ } }
    tugForce := ⟨0, 0, 0⟩ }

/-- Models `updateMouseTugForce()` -/
def updateMouseTugForce (c : ControlState α) : ControlState α :=
  if !c.desktop.mouseDown then c
  else
    let deltaX := c.desktop.currentX - c.desktop.mouseStartX
    let deltaY := c.desktop.mouseStartY - c.desktop.currentY
    let forceX := min MAX_TUG_FORCE (max (-MAX_TUG_FORCE) (deltaX * MOUSE_SENSITIVITY))
    let forceY := min MAX_TUG_FORCE (max (-MAX_TUG_FORCE) (deltaY * MOUSE_SENSITIVITY))
    { c with tugForce := { c.tugForce with x := forceX, y := forceY } }

/-- Models `updateKeyboardTugForce()` -/
def updateKeyboardTugForce (c : ControlState α) : ControlState α :=
  let keys := c.desktop.keys
  let forceX : α := 0
  let forceY : α := 0
  let forceY := if keys.up then forceY + KEYBOARD_FORCE_INCREMENT else forceY
  let forceY := if keys.down then forceY - KEYBOARD_FORCE_INCREMENT else forceY
  let forceX := if keys.left then forceX - KEYBOARD_FORCE_INCREMENT else forceX
  let forceX := if keys.right then forceX + KEYBOARD_FORCE_INCREMENT else forceX
  let forceX := min MAX_TUG_FORCE (max (-MAX_TUG_FORCE) forceX)
  let forceY := min MAX_TUG_FORCE (max (-MAX_TUG_FORCE) forceY)
  { c with tugForce := { c.tugForce with x := forceX, y := forceY } }

/-- Models `updateJoystickTugForce()` -/
def updateJoystickTugForce (c : ControlState α) : ControlState α :=
  let vector := c.mobile.joystickData.vector
  let forceX := vector.x * MAX_TUG_FORCE
  let forceY := -vector.y * MAX_TUG_FORCE
  { c with tugForce := { c.tugForce with x := forceX, y := forceY } }

/-- Models `resetTugForce()` -/
def resetTugForce (c : ControlState α) : ControlState α :=
  let RESET_RATE : α := 0.1
  let x := if |c.tugForce.x| < 0.1 then 0 else c.tugForce.x * (1 - RESET_RATE)
  let y := if |c.tugForce.y| < 0.1 then 0 else c.tugForce.y * (1 - RESET_RATE)
  { c with tugForce := { c.tugForce with x := x, y := y } }

/-- Models `getTugForce()` -/
def getTugForce (c : ControlState α) : Vec3 α :=
  ⟨c.tugForce.x, c.tugForce.y, c.tugForce.z⟩

/-- The control state in the middle of a mouse drag that started at `(100, 200)` and has
reached `(400, 50)`, before the tug force is updated. -/
def draggingControlState : ControlState α :=
  { desktop :=
      { mouseDown := true, mouseStartX := 100, mouseStartY := 200, currentX := 400
        currentY := 50
        keys := { up := false, down := false, left := false, right := false } }
    mobile :=
      { hasJoystick := false, joystickData := { angle := 0, force := 0, vector := ⟨0, 0⟩ } }
    tugForce := ⟨0, 0, 0⟩ }

/-- The control state in the middle of a long mouse drag that started at `(0, 2000)` and
has reached `(2000, 0)`, before the tug force is updated. -/
def farDragControlState : ControlState α :=
  { desktop :=
      { mouseDown := true, mouseStartX := 0, mouseStartY := 2000, currentX := 2000
        currentY := 0
        keys := { up := false, down := false, left := false, right := false } }
    mobile :=
      { hasJoystick := false, joystickData := { angle := 0, force := 0, vector := ⟨0, 0⟩ } }
    tugForce := ⟨0, 0, 0⟩ }

/-- The joystick `move` handler registered by `setupMobileControls`, for an event with
`data.angle.radian = angleRadian` and `data.force = dataForce`. -/
def joystickMove (sin cos : α → α) (angleRadian dataForce : α) (c : ControlState α) :
    ControlState α :=
  let force := min 1 (dataForce / 50)
  let c1 :=
    { c with
      mobile :=
        { c.mobile with
          joystickData :=
            { angle := angleRadian
              force := force
              vector := ⟨cos angleRadian * force, sin angleRadian * force⟩ } } }
  updateJoystickTugForce c1

/-- What one `resetTugForce` call does to a single component of the tug force. -/
def decayStep (x : α) : α :=
  if |x| < 0.1 then 0 else x * (1 - 0.1)

end ControlsModel

section KiteModel

variable {α : Type} [LinearOrderedField α]

/-! ## `src/js/kite.js`: wind force on the kite -/

/-- A quaternion `(x, y, z, w)`, as `kite.body.quaternion`. -/
structure Quaternion (α : Type) where
  x : α
  y : α
  z : α
  w : α

/-- Models `a.dot(b)`. -/
def Vec3.dot (a b : Vec3 α) : α :=
  a.x * b.x + a.y * b.y + a.z * b.z

/-- Models `a.cross(b)`: the vector product `a × b`. -/
def Vec3.cross (a b : Vec3 α) : Vec3 α :=
  ⟨a.y * b.z - a.z * b.y, a.z * b.x - a.x * b.z, a.x * b.y - a.y * b.x⟩

/-- Modelled from the spec: `v.applyQuaternion(q)` is a library method that is not under
`src/`; the spec has it give the vector in world space for the orientation `q`, that is
the rotation `q v q*`, written out here as three.js computes it. -/
def Vec3.applyQuaternion (v : Vec3 α) (q : Quaternion α) : Vec3 α :=
  let ix := q.w * v.x + q.y * v.z - q.z * v.y
  let iy := q.w * v.y + q.z * v.x - q.x * v.z
  let iz := q.w * v.z + q.x * v.y - q.y * v.x
  let iw := -q.x * v.x - q.y * v.y - q.z * v.z
  ⟨ix * q.w + iw * -q.x + iy * -q.z - iz * -q.y,
    iy * q.w + iw * -q.y + iz * -q.x - ix * -q.z,
    iz * q.w + iw * -q.z + ix * -q.y - iy * -q.x⟩

/-- Models `applyWindForce(kite, windVector)` with `quaternion = kite.body.quaternion`:
the forces handed to `kite.body.applyForce`, in call order (lift, then drag), or none. -/
def applyWindForce (sqrt : α → α) (quaternion : Quaternion α) (windVector : Vec3 α) :
    List (Vec3 α) :=
  let kiteNormal := Vec3.applyQuaternion ⟨0, 0, 1⟩ quaternion
  let dot := Vec3.dot kiteNormal windVector
  if dot < 0 then
    let liftForceMagnitude := Vec3.length sqrt windVector * |dot| * 2.0
    let kiteEdge := Vec3.applyQuaternion ⟨1, 0, 0⟩ quaternion
    let planeNormal := Vec3.normalize sqrt (Vec3.cross windVector kiteEdge)
    let liftDirection := Vec3.normalize sqrt (Vec3.cross windVector planeNormal)
    let liftForce := Vec3.scale liftDirection liftForceMagnitude
    let dragForceMagnitude := Vec3.length sqrt windVector * |dot| * 0.3
    let dragForce := Vec3.scale windVector dragForceMagnitude
    [liftForce, dragForce]
  else []

/-- The identity orientation. -/
def identityQuaternion : Quaternion α := ⟨0, 0, 0, 1⟩

/-- The orientation turned by 180 degrees about the y axis. -/
def halfTurnAboutY : Quaternion α := ⟨0, 1, 0, 0⟩

end KiteModel

section ObstaclesModel

variable {α : Type} [LinearOrderedField α]

/-! ## `src/js/objects/obstacles.js`: segment against sphere

The `THREE.Vector3` methods used are written out, with `Math.sqrt` as `sqrt`. -/

/-- Models `a.sub(b)` of `THREE.Vector3`. -/
def Vector3.sub (a b : Vec3 α) : Vec3 α :=
  ⟨a.x - b.x, a.y - b.y, a.z - b.z⟩

/-- Models `a.add(b)` of `THREE.Vector3`. -/
def Vector3.add (a b : Vec3 α) : Vec3 α :=
  ⟨a.x + b.x, a.y + b.y, a.z + b.z⟩

/-- Models `a.multiplyScalar(s)` of `THREE.Vector3`. -/
def Vector3.multiplyScalar (a : Vec3 α) (s : α) : Vec3 α :=
  ⟨a.x * s, a.y * s, a.z * s⟩

/-- Models `a.dot(b)` of `THREE.Vector3`. -/
def Vector3.dot (a b : Vec3 α) : α :=
  a.x * b.x + a.y * b.y + a.z * b.z

/-- Models `a.length()` of `THREE.Vector3`. -/
def Vector3.length (sqrt : α → α) (a : Vec3 α) : α :=
  sqrt (a.x * a.x + a.y * a.y + a.z * a.z)

/-- Models `a.normalize()` of `THREE.Vector3`: `divideScalar(length() || 1)`, so the zero
vector is left as it is. -/
def Vector3.normalize (sqrt : α → α) (a : Vec3 α) : Vec3 α :=
  let l := Vector3.length sqrt a
  Vector3.multiplyScalar a (1 / (if l = 0 then 1 else l))

/-- Models `a.distanceTo(b)` of `THREE.Vector3`. -/
def Vector3.distanceTo (sqrt : α → α) (a b : Vec3 α) : α :=
  let dx := a.x - b.x
  let dy := a.y - b.y
  let dz := a.z - b.z
  sqrt (dx * dx + dy * dy + dz * dz)

/-- Models `lineIntersectsSphere(start, end, center, radius)`; `finish` is the parameter
named `end` in the source. -/
def lineIntersectsSphere (sqrt : α → α) (start finish center : Vec3 α) (radius : α) : Bool :=
  let line := Vector3.sub finish start
  let lineLength := Vector3.length sqrt line
  let line := Vector3.normalize sqrt line
  let startToCenter := Vector3.sub center start
  let projection := Vector3.dot startToCenter line
  if projection < 0 ∨ projection > lineLength then
    decide (Vector3.distanceTo sqrt start center < radius)
      || decide (Vector3.distanceTo sqrt finish center < radius)
  else
    let closest := Vector3.add start (Vector3.multiplyScalar line projection)
    decide (Vector3.distanceTo sqrt closest center < radius)

end ObstaclesModel

section GameModel

variable {α : Type} [LinearOrderedField α]

/-! ## `src/js/game.js`: theme progression -/

/-- The three values `currentTheme` takes. -/
inductive Theme where
  | islands
  | forests
  | cities
  deriving DecidableEq, Repr

/-- The part of the game state `updateDreamscape` touches: `currentTheme` and the
`transitionTheme(theme, duration)` calls made so far, latest first. -/
structure ThemeState (α : Type) where
  currentTheme : Theme
  transitionCalls : List (Theme × α)

/-- Models `updateDreamscape(gameTime, deltaTime)` of `game.js`. -/
def updateDreamscape (gameTime _deltaTime : α) (s : ThemeState α) : ThemeState α :=
  if gameTime > 120 ∧ s.currentTheme ≠ Theme.cities then
    { currentTheme := Theme.cities
      transitionCalls := (Theme.cities, 2.0) :: s.transitionCalls }
  else if gameTime > 60 ∧ s.currentTheme ≠ Theme.forests then
    { currentTheme := Theme.forests
      transitionCalls := (Theme.forests, 2.0) :: s.transitionCalls }
  else s

/-- The state after a sequence of `updateDreamscape` calls with the given game times. -/
def runDreamscape : List α → ThemeState α → ThemeState α
  | [], s => s
  | t :: ts, s => runDreamscape ts (updateDreamscape t (1 / 60) s)

end GameModel

section HealthLemmas

variable {α : Type} [LinearOrderedField α]

theorem updateHealthBar_currentHealth (health : α) (s : HealthState α) :
    (updateHealthBar health s).currentHealth = max 0 (min MAX_HEALTH health) := by
  unfold updateHealthBar updateHealthColor showLowHealthWarning hideLowHealthWarning gameOver
  simp only []
  split_ifs <;> rfl

theorem updateHealthBar_gameOverCalls (health : α) (s : HealthState α) :
    (updateHealthBar health s).gameOverCalls =
      s.gameOverCalls + (if max 0 (min MAX_HEALTH health) ≤ 0 then 1 else 0) := by
  unfold updateHealthBar updateHealthColor showLowHealthWarning hideLowHealthWarning gameOver
  simp only []
  split_ifs <;> rfl

omit [LinearOrderedField α] in
theorem animateDamage_currentHealth (s : HealthState α) :
    (animateDamage s).currentHealth = s.currentHealth := by
  unfold animateDamage
  split_ifs <;> rfl

omit [LinearOrderedField α] in
theorem animateDamage_gameOverCalls (s : HealthState α) :
    (animateDamage s).gameOverCalls = s.gameOverCalls := by
  unfold animateDamage
  split_ifs <;> rfl

theorem damageString_currentHealth (a : α) (s : HealthState α) :
    (damageString a s).1.currentHealth = max 0 (min MAX_HEALTH (max 0 (s.currentHealth - a))) := by
  simp only [damageString, updateHealthBar_currentHealth, animateDamage_currentHealth]

theorem damageString_result (a : α) (s : HealthState α) :
    (damageString a s).2 = max 0 (s.currentHealth - a) := rfl

theorem damageString_gameOverCalls (a : α) (s : HealthState α) :
    (damageString a s).1.gameOverCalls =
      s.gameOverCalls + (if (damageString a s).1.currentHealth = 0 then 1 else 0) := by
  have hg : (damageString a s).1.gameOverCalls = s.gameOverCalls +
      (if max 0 (min MAX_HEALTH (max 0 (s.currentHealth - a))) ≤ 0 then 1 else 0) := by
    simp only [damageString, updateHealthBar_gameOverCalls, animateDamage_gameOverCalls]
  rw [hg, damageString_currentHealth]
  have h0 : (0 : α) ≤ max 0 (min MAX_HEALTH (max 0 (s.currentHealth - a))) := le_max_left _ _
  by_cases h : max 0 (min MAX_HEALTH (max 0 (s.currentHealth - a))) = 0
  · rw [if_pos h, if_pos (le_of_eq h)]
  · rw [if_neg h, if_neg]
    intro hle
    exact h (le_antisymm hle h0)

theorem repairString_currentHealth (a : α) (s : HealthState α) :
    (repairString a s).1.currentHealth =
      max 0 (min MAX_HEALTH (min MAX_HEALTH (s.currentHealth + a))) := by
  simp only [repairString, updateHealthBar_currentHealth, animateRepair]

theorem repairString_result (a : α) (s : HealthState α) :
    (repairString a s).2 = min MAX_HEALTH (s.currentHealth + a) := rfl

theorem clamp_inRange (h : α) : 0 ≤ max 0 (min (MAX_HEALTH : α) h) ∧
    max 0 (min (MAX_HEALTH : α) h) ≤ MAX_HEALTH := by
  refine ⟨le_max_left _ _, max_le ?_ (min_le_left _ _)⟩
  unfold MAX_HEALTH
  norm_num

theorem healthCall_run_inRange (c : HealthCall α) (s : HealthState α) :
    HealthInRange (c.run s) := by
  cases c with
  | updateHealthBar h =>
    simp only [HealthCall.run, HealthInRange, updateHealthBar_currentHealth]
    exact clamp_inRange _
  | damageString a =>
    simp only [HealthCall.run, HealthInRange, damageString_currentHealth]
    exact clamp_inRange _
  | repairString a =>
    simp only [HealthCall.run, HealthInRange, repairString_currentHealth]
    exact clamp_inRange _

theorem runHealthCalls_inRange (cs : List (HealthCall α)) :
    ∀ s : HealthState α, HealthInRange s → HealthInRange (runHealthCalls cs s) := by
  induction cs with
  | nil => intro s hs; exact hs
  | cons c cs ih => intro s _; exact ih _ (healthCall_run_inRange c s)

theorem runDamage_gameOverCalls (as : List α) :
    ∀ s : HealthState α,
      (runDamage as s).gameOverCalls = s.gameOverCalls + (damageTrace as s).count 0 := by
  induction as with
  | nil => intro s; simp [runDamage, damageTrace]
  | cons a as ih =>
    intro s
    simp only [runDamage, damageTrace, ih, damageString_gameOverCalls, List.count_cons]
    by_cases h : (damageString a s).1.currentHealth = 0
    · simp [h]; omega
    · simp [h]

theorem damageString_zero_stays (a : α) (s : HealthState α) (hs : s.currentHealth = 0)
    (ha : 0 ≤ a) : (damageString a s).1.currentHealth = 0 := by
  rw [damageString_currentHealth, hs]
  have h1 : max (0 : α) (0 - a) = 0 := max_eq_left (by linarith)
  have h2 : min (MAX_HEALTH : α) 0 = 0 := min_eq_right (by unfold MAX_HEALTH; norm_num)
  rw [h1, h2, max_self]

theorem runDamage_zero_stays (as : List α) :
    ∀ s : HealthState α, s.currentHealth = 0 → (∀ a ∈ as, 0 ≤ a) →
      (runDamage as s).currentHealth = 0 := by
  induction as with
  | nil => intro s hs _; exact hs
  | cons a as ih =>
    intro s hs has
    exact ih _ (damageString_zero_stays a s hs (has a (List.mem_cons_self _ _)))
      (fun b hb => has b (List.mem_cons_of_mem _ hb))

theorem runDamage_append (as bs : List α) :
    ∀ s : HealthState α, runDamage (as ++ bs) s = runDamage bs (runDamage as s) := by
  induction as with
  | nil => intro s; rfl
  | cons a as ih => intro s; exact ih _

theorem runDamage_at_zero (bs : List α) :
    ∀ s : HealthState α, s.currentHealth = 0 → (∀ b ∈ bs, 0 ≤ b) →
      (runDamage bs s).gameOverCalls = s.gameOverCalls + bs.length := by
  induction bs with
  | nil => intro s _ _; rfl
  | cons b bs ih =>
    intro s hs hbs
    have hz := damageString_zero_stays b s hs (hbs b (List.mem_cons_self _ _))
    have hstep := damageString_gameOverCalls b s
    rw [hz, if_pos rfl] at hstep
    have := ih (damageString b s).1 hz (fun x hx => hbs x (List.mem_cons_of_mem _ hx))
    simp only [runDamage, List.length_cons]
    rw [this, hstep]
    omega

theorem runDamage_positive (as : List α) :
    ∀ s : HealthState α, (∀ a ∈ as, 0 ≤ a) → 0 < (runDamage as s).currentHealth →
      (runDamage as s).gameOverCalls = s.gameOverCalls := by
  induction as with
  | nil => intro s _ _; rfl
  | cons a as ih =>
    intro s has hpos
    have has' : ∀ x ∈ as, 0 ≤ x := fun x hx => has x (List.mem_cons_of_mem _ hx)
    simp only [runDamage] at hpos ⊢
    have hne : (damageString a s).1.currentHealth ≠ 0 := by
      intro hz
      rw [runDamage_zero_stays as _ hz has'] at hpos
      exact lt_irrefl _ hpos
    rw [ih _ has' hpos, damageString_gameOverCalls, if_neg hne]
    rfl

end HealthLemmas

section LengthLemmas

variable {α : Type} [LinearOrderedField α]

theorem lengthCall_run_inRange (c : LengthCall α) (s : StringState α)
    (hs : LengthInRange s) (hc : 0 ≤ c.amount) : LengthInRange (c.run s) := by
  obtain ⟨hlo, hhi⟩ := hs
  have h530 : (MIN_STRING_LENGTH : α) ≤ MAX_STRING_LENGTH := by
    unfold MIN_STRING_LENGTH MAX_STRING_LENGTH; norm_num
  cases c with
  | extendString a =>
    simp only [LengthCall.amount] at hc
    simp only [LengthCall.run, extendString, LengthInRange]
    exact ⟨le_min h530 (by linarith), min_le_left _ _⟩
  | shortenString a =>
    simp only [LengthCall.amount] at hc
    simp only [LengthCall.run, shortenString, LengthInRange]
    exact ⟨le_max_left _ _, max_le h530 (by linarith)⟩

theorem runLengthCalls_inRange (cs : List (LengthCall α)) :
    ∀ s : StringState α, LengthInRange s → (∀ c ∈ cs, 0 ≤ c.amount) →
      LengthInRange (runLengthCalls cs s) := by
  induction cs with
  | nil => intro s hs _; exact hs
  | cons c cs ih =>
    intro s hs hc
    exact ih _ (lengthCall_run_inRange c s hs (hc c (List.mem_cons_self _ _)))
      (fun d hd => hc d (List.mem_cons_of_mem _ hd))

end LengthLemmas

section StringLemmas

variable {α : Type} [LinearOrderedField α]

theorem foldl_set_range {β : Type} (f : Nat → β) :
    ∀ (n : Nat) (l : List β), n ≤ l.length →
      (List.range n).foldl (fun acc i => acc.set i (f i)) l
        = (List.range n).map f ++ l.drop n := by
  intro n
  induction n with
  | zero => intro l _; simp
  | succ n ih =>
    intro l hl
    have hn : n < l.length := hl
    rw [List.range_succ, List.foldl_append, ih l (le_of_lt hn)]
    simp only [List.foldl_cons, List.foldl_nil, List.map_append, List.map_cons, List.map_nil]
    have hlen : ((List.range n).map f).length = n := by simp
    rw [List.set_append_right _ _ (by rw [hlen]), hlen, Nat.sub_self,
      List.drop_eq_getElem_cons hn]
    simp only [List.set_cons_zero, List.append_assoc, List.singleton_append]

theorem updateStringVisual_points (string : StringState α) (kitePos : Vec3 α)
    (hlen : string.points.length = STRING_SEGMENTS) :
    (updateStringVisual string kitePos).points
      = (List.range STRING_SEGMENTS).map (stringPoint string kitePos) := by
  unfold updateStringVisual
  simp only []
  rw [foldl_set_range (stringPoint string kitePos) STRING_SEGMENTS string.points
    (le_of_eq hlen.symm), ← hlen, List.drop_length, List.append_nil]

theorem calculateStringTension_updateConstraintLength (sqrt : α → α)
    (string : StringState α) (kitePos : Vec3 α) :
    calculateStringTension sqrt (updateConstraintLength string) kitePos
      = calculateStringTension sqrt string kitePos := by
  unfold updateConstraintLength
  split_ifs <;> rfl

theorem calculateStringTension_congr (sqrt : α → α) (s t : StringState α) (kitePos : Vec3 α)
    (hl : t.length = s.length) (ha : t.anchorPos = s.anchorPos)
    (ht : t.tugForce = s.tugForce) :
    calculateStringTension sqrt t kitePos = calculateStringTension sqrt s kitePos := by
  unfold calculateStringTension
  rw [hl, ha, ht]

theorem updateString_tension (sqrt : α → α) (string : StringState α) (kitePos : Vec3 α)
    (dt : α) (health : HealthState α) :
    (updateString sqrt string kitePos dt health).string.tension
      = calculateStringTension sqrt string kitePos := by
  rw [← calculateStringTension_updateConstraintLength]
  unfold updateString
  simp only []
  split_ifs <;> rfl

theorem updateString_frame (sqrt : α → α) (string : StringState α) (kitePos : Vec3 α)
    (dt : α) (health : HealthState α) :
    (updateString sqrt string kitePos dt health).string.length = string.length ∧
      (updateString sqrt string kitePos dt health).string.anchorPos = string.anchorPos ∧
      (updateString sqrt string kitePos dt health).string.tugForce = string.tugForce := by
  unfold updateString updateConstraintLength
  simp only []
  split_ifs <;> exact ⟨rfl, rfl, rfl⟩

theorem updateString_health (sqrt : α → α) (string : StringState α) (kitePos : Vec3 α)
    (dt : α) (health : HealthState α) :
    (updateString sqrt string kitePos dt health).health =
      if calculateStringTension sqrt string kitePos > STRING_TENSION_THRESHOLD then
        (damageString
          ((calculateStringTension sqrt string kitePos - STRING_TENSION_THRESHOLD) * 0.1)
          health).1
      else health := by
  rw [← calculateStringTension_updateConstraintLength]
  unfold updateString
  simp only []
  have ht : (updateStringVisual
      { updateConstraintLength string with
        tension := calculateStringTension sqrt (updateConstraintLength string) kitePos }
      kitePos).tension = calculateStringTension sqrt (updateConstraintLength string) kitePos :=
    rfl
  rw [ht]
  split_ifs <;> rfl

theorem sqrt_four_hundred : Real.sqrt 400 = 20 := by
  rw [show (400 : ℝ) = 20 ^ 2 by norm_num, Real.sqrt_sq (by norm_num)]

theorem sqrt_twenty_five : Real.sqrt 25 = 5 := by
  rw [show (25 : ℝ) = 5 ^ 2 by norm_num, Real.sqrt_sq (by norm_num)]

theorem sqrt_hundred : Real.sqrt 100 = 10 := by
  rw [show (100 : ℝ) = 10 ^ 2 by norm_num, Real.sqrt_sq (by norm_num)]

theorem stringPoint_eq (string : StringState α) (kitePos : Vec3 α) (i : Nat) :
    stringPoint string kitePos i =
      ⟨string.anchorPos.x + ((i : α) / 9) * (kitePos.x - string.anchorPos.x),
        (string.anchorPos.y + ((i : α) / 9) * (kitePos.y - string.anchorPos.y))
          - ((i : α) / 9) * (1 - (i : α) / 9) * (1 - min 1 (string.tension / 5)) * 2,
        string.anchorPos.z + ((i : α) / 9) * (kitePos.z - string.anchorPos.z)⟩ := by
  have h9 : ((STRING_SEGMENTS : Nat) : α) - 1 = 9 := by
    simp only [STRING_SEGMENTS]; norm_num
  simp only [stringPoint, h9, mul_assoc]

theorem updateStringVisual_getElem (string : StringState α) (kitePos : Vec3 α)
    (hlen : string.points.length = STRING_SEGMENTS) (i : Nat) (hi : i < STRING_SEGMENTS) :
    (updateStringVisual string kitePos).points[i]? = some (stringPoint string kitePos i) := by
  rw [updateStringVisual_points string kitePos hlen, List.getElem?_map,
    List.getElem?_range hi, Option.map_some']

theorem sample_parameter_bounds (i : Nat) (hi : i < STRING_SEGMENTS) :
    (0 : α) ≤ ((i : α) / 9) * (1 - (i : α) / 9) := by
  have h0 : (0 : α) ≤ (i : α) := Nat.cast_nonneg i
  have h9 : (i : α) ≤ 9 := by
    have : i ≤ 9 := by simp only [STRING_SEGMENTS] at hi; omega
    exact_mod_cast this
  apply mul_nonneg
  · positivity
  · have : (i : α) / 9 ≤ 1 := by
      rw [div_le_one (by norm_num)]; exact h9
    linarith

end StringLemmas

section WindLemmas

variable {α : Type} [LinearOrderedField α]

theorem updateWindTarget_target (w : WindSystem α) :
    (updateWindTarget w).target =
      if w.gust.active then
        ⟨w.base.direction.x * w.base.strength
            + w.gust.direction.x * w.gust.strength * gustFactor w.gust,
          w.base.direction.y * w.base.strength
            + w.gust.direction.y * w.gust.strength * gustFactor w.gust,
          w.base.direction.z * w.base.strength
            + w.gust.direction.z * w.gust.strength * gustFactor w.gust⟩
      else
        ⟨w.base.direction.x * w.base.strength, w.base.direction.y * w.base.strength,
          w.base.direction.z * w.base.strength⟩ := rfl

theorem updateWindVariations_frame (sin cos : α → α) (dt : α) (w : WindSystem α) :
    (updateWindVariations sin cos dt w).current = w.current ∧
      (updateWindVariations sin cos dt w).base = w.base ∧
      (updateWindVariations sin cos dt w).gust = w.gust := by
  unfold updateWindVariations
  simp only []
  split_ifs <;> exact ⟨rfl, rfl, rfl⟩

theorem updateWindVariations_active (sin cos : α → α) (dt : α) (w : WindSystem α)
    (h : w.gust.active = true) : updateWindVariations sin cos dt w = w := by
  unfold updateWindVariations
  simp [h]

theorem updateWindGusts_current (sqrt : α → α) (draws : GustDraws α) (dt difficulty : α)
    (w : WindSystem α) : (updateWindGusts sqrt draws dt difficulty w).current = w.current := by
  unfold updateWindGusts startNewGust
  simp only []
  split_ifs <;> rfl

theorem updateWindGusts_active_step (sqrt : α → α) (draws : GustDraws α) (dt difficulty : α)
    (w : WindSystem α) (h : w.gust.active = true) :
    updateWindGusts sqrt draws dt difficulty w =
      if w.gust.timeRemaining - dt ≤ 0 then
        updateWindTarget
          { w with gust := { w.gust with timeRemaining := w.gust.timeRemaining - dt,
                                          active := false } }
      else
        updateWindTarget
          { w with gust := { w.gust with timeRemaining := w.gust.timeRemaining - dt } } := by
  unfold updateWindGusts
  simp only [h, if_true]

theorem updateWindGusts_idle_step (sqrt : α → α) (draws : GustDraws α) (dt difficulty : α)
    (w : WindSystem α) (h : w.gust.active = false) :
    updateWindGusts sqrt draws dt difficulty w =
      if draws.start < GUST_PROBABILITY * (1 + difficulty) then
        startNewGust sqrt draws difficulty w
      else w := by
  unfold updateWindGusts
  simp [h]

theorem updateWind_current (sqrt sin cos : α → α) (draws : GustDraws α)
    (dt gameTime difficulty : α) (w : WindSystem α) :
    (updateWind sqrt sin cos draws dt gameTime difficulty w).current =
      ⟨w.current.x
          + ((updateWind sqrt sin cos draws dt gameTime difficulty w).target.x - w.current.x)
            * 0.1,
        w.current.y
          + ((updateWind sqrt sin cos draws dt gameTime difficulty w).target.y - w.current.y)
            * 0.1,
        w.current.z
          + ((updateWind sqrt sin cos draws dt gameTime difficulty w).target.z - w.current.z)
            * 0.1⟩ := by
  unfold updateWind
  simp only [updateWindGusts_current, (updateWindVariations_frame sin cos dt _).1]

theorem updateWind_of_active (sqrt sin cos : α → α) (draws : GustDraws α)
    (dt gameTime difficulty : α) (w : WindSystem α) (h : w.gust.active = true) :
    (updateWind sqrt sin cos draws dt gameTime difficulty w).target =
        (updateWindGusts sqrt draws dt difficulty w).target ∧
      (updateWind sqrt sin cos draws dt gameTime difficulty w).gust =
        (updateWindGusts sqrt draws dt difficulty w).gust := by
  have hv : ∀ w1 : WindSystem α, w1.gust = w.gust →
      updateWindVariations sin cos dt w1 = w1 := fun w1 h1 =>
    updateWindVariations_active sin cos dt w1 (by rw [h1]; exact h)
  have hg : ∀ w1 : WindSystem α, w1.gust = w.gust → w1.base = w.base →
      (updateWindGusts sqrt draws dt difficulty w1).target =
          (updateWindGusts sqrt draws dt difficulty w).target ∧
        (updateWindGusts sqrt draws dt difficulty w1).gust =
          (updateWindGusts sqrt draws dt difficulty w).gust := by
    intro w1 h1 h2
    rw [updateWindGusts_active_step sqrt draws dt difficulty w1 (by rw [h1]; exact h),
      updateWindGusts_active_step sqrt draws dt difficulty w h]
    simp only [h1]
    split_ifs
    · constructor
      · rw [updateWindTarget_target, updateWindTarget_target]
        simp only [h1, h2]
      · simp only [updateWindTarget, h1]
    · constructor
      · rw [updateWindTarget_target, updateWindTarget_target]
        simp only [h1, h2]
      · simp only [updateWindTarget, h1]
  have hw1 := hv
    { w with
      variation := { w.variation with time := w.variation.time + dt * WIND_VARIATION_SPEED }
      difficulty := difficulty } rfl
  have hw2 := hg
    { w with
      variation := { w.variation with time := w.variation.time + dt * WIND_VARIATION_SPEED }
      difficulty := difficulty } rfl rfl
  unfold updateWind
  simp only []
  rw [hw1]
  exact hw2

theorem updateWindVariations_variation (sin cos : α → α) (dt : α) (w : WindSystem α) :
    (updateWindVariations sin cos dt w).variation = w.variation := by
  unfold updateWindVariations
  simp only []
  split_ifs <;> rfl

theorem updateWindGusts_variation (sqrt : α → α) (draws : GustDraws α) (dt difficulty : α)
    (w : WindSystem α) :
    (updateWindGusts sqrt draws dt difficulty w).variation = w.variation := by
  unfold updateWindGusts startNewGust
  simp only []
  split_ifs <;> rfl

theorem updateWind_variation (sqrt sin cos : α → α) (draws : GustDraws α)
    (dt gameTime difficulty : α) (w : WindSystem α) :
    (updateWind sqrt sin cos draws dt gameTime difficulty w).variation =
      ⟨w.variation.time + dt * WIND_VARIATION_SPEED, w.variation.noiseOffsetX,
        w.variation.noiseOffsetY, w.variation.noiseOffsetZ⟩ := by
  unfold updateWind
  simp only [updateWindGusts_variation, updateWindVariations_variation]

theorem sumsq_eq_zero_iff (a b c : ℝ) : a * a + b * b + c * c = 0 ↔ a = 0 ∧ b = 0 ∧ c = 0 := by
  constructor
  · intro h
    have ha := mul_self_nonneg a
    have hb := mul_self_nonneg b
    have hc := mul_self_nonneg c
    refine ⟨?_, ?_, ?_⟩
    · exact mul_self_eq_zero.mp (by linarith)
    · exact mul_self_eq_zero.mp (by linarith)
    · exact mul_self_eq_zero.mp (by linarith)
  · rintro ⟨rfl, rfl, rfl⟩
    norm_num

theorem length_eq_zero_iff (v : Vec3 ℝ) :
    Vec3.length Real.sqrt v = 0 ↔ v = ⟨0, 0, 0⟩ := by
  obtain ⟨a, b, c⟩ := v
  simp only [Vec3.length]
  rw [Real.sqrt_eq_zero (by nlinarith [mul_self_nonneg a, mul_self_nonneg b, mul_self_nonneg c]),
    sumsq_eq_zero_iff]
  simp only [Vec3.mk.injEq]

theorem length_scale_right (a b c k : ℝ) (hk : 0 ≤ k) :
    Vec3.length Real.sqrt ⟨a * k, b * k, c * k⟩ = k * Vec3.length Real.sqrt ⟨a, b, c⟩ := by
  simp only [Vec3.length]
  rw [show a * k * (a * k) + b * k * (b * k) + c * k * (c * k)
      = k ^ 2 * (a * a + b * b + c * c) by ring,
    Real.sqrt_mul (sq_nonneg k), Real.sqrt_sq hk]

theorem normalize_length (v : Vec3 ℝ) (h : 0 < Vec3.length Real.sqrt v) :
    Vec3.length Real.sqrt (Vec3.normalize Real.sqrt v) = 1 := by
  obtain ⟨a, b, c⟩ := v
  have hn : Vec3.normalize Real.sqrt ⟨a, b, c⟩ =
      ⟨a * (1 / Vec3.length Real.sqrt ⟨a, b, c⟩), b * (1 / Vec3.length Real.sqrt ⟨a, b, c⟩),
        c * (1 / Vec3.length Real.sqrt ⟨a, b, c⟩)⟩ := by
    simp only [Vec3.normalize, if_pos h]
  rw [hn, length_scale_right a b c _ (by positivity)]
  field_simp

theorem startNewGust_gust (sqrt : α → α) (draws : GustDraws α) (difficulty : α)
    (w : WindSystem α) :
    (startNewGust sqrt draws difficulty w).gust =
      { w.gust with
        active := true
        duration := 1 + draws.duration * (3 - 1)
        timeRemaining := 1 + draws.duration * (3 - 1)
        strength := 2 * (1 + difficulty * 0.5)
          + draws.strength * (8 * (1 + difficulty * 0.5) - 2 * (1 + difficulty * 0.5))
        direction := Vec3.normalize sqrt
          ⟨w.base.direction.x + (draws.dirX * 2 - 1) * (0.3 + difficulty * 0.2),
            w.base.direction.y + (draws.dirY * 2 - 1) * (0.3 + difficulty * 0.2),
            w.base.direction.z + (draws.dirZ * 2 - 1) * (0.3 + difficulty * 0.2)⟩ } := rfl

theorem updateWindGusts_idle_active (sqrt : α → α) (draws : GustDraws α) (dt difficulty : α)
    (w : WindSystem α) (h : w.gust.active = false) :
    (updateWindGusts sqrt draws dt difficulty w).gust.active = true ↔
      draws.start < GUST_PROBABILITY * (1 + difficulty) := by
  rw [updateWindGusts_idle_step sqrt draws dt difficulty w h]
  by_cases hu : draws.start < GUST_PROBABILITY * (1 + difficulty)
  · rw [if_pos hu, startNewGust_gust]
    simp only [true_iff]
    exact hu
  · rw [if_neg hu, h]
    simp only [Bool.false_eq_true, false_iff]
    exact hu

theorem perturbation_sq_le (r d : ℝ) (hr0 : 0 ≤ r) (hr1 : r < 1) (hd0 : 0 ≤ d) (hd1 : d ≤ 1) :
    ((r * 2 - 1) * (0.3 + d * 0.2)) * ((r * 2 - 1) * (0.3 + d * 0.2)) ≤ 1 / 4 := by
  have h1 : (r * 2 - 1) * (r * 2 - 1) ≤ 1 := by nlinarith
  have h2 : (0.3 + d * 0.2) * (0.3 + d * 0.2) ≤ 1 / 4 := by nlinarith
  have h3 : 0 ≤ (r * 2 - 1) * (r * 2 - 1) := mul_self_nonneg _
  have h4 : 0 ≤ (0.3 + d * 0.2) * (0.3 + d * 0.2) := mul_self_nonneg _
  calc ((r * 2 - 1) * (0.3 + d * 0.2)) * ((r * 2 - 1) * (0.3 + d * 0.2))
      = ((r * 2 - 1) * (r * 2 - 1)) * ((0.3 + d * 0.2) * (0.3 + d * 0.2)) := by ring
    _ ≤ 1 * (1 / 4) := mul_le_mul h1 h2 h4 (by norm_num)
    _ = 1 / 4 := by norm_num

theorem perturbed_length_pos (b : Vec3 ℝ) (ex ey ez : ℝ)
    (hb : Vec3.length Real.sqrt b = 1)
    (hx : ex * ex ≤ 1 / 4) (hy : ey * ey ≤ 1 / 4) (hz : ez * ez ≤ 1 / 4) :
    0 < Vec3.length Real.sqrt ⟨b.x + ex, b.y + ey, b.z + ez⟩ := by
  have hS : b.x * b.x + b.y * b.y + b.z * b.z = 1 := by
    have h := hb
    simp only [Vec3.length] at h
    rw [Real.sqrt_eq_one] at h
    exact h
  have hnn := Real.sqrt_nonneg
    ((b.x + ex) * (b.x + ex) + (b.y + ey) * (b.y + ey) + (b.z + ez) * (b.z + ez))
  rcases hnn.lt_or_eq with hlt | heq
  · exact hlt
  · exfalso
    have h0 := (length_eq_zero_iff ⟨b.x + ex, b.y + ey, b.z + ez⟩).mp heq.symm
    simp only [Vec3.mk.injEq] at h0
    obtain ⟨h1, h2, h3⟩ := h0
    have e1 : b.x = -ex := by linarith
    have e2 : b.y = -ey := by linarith
    have e3 : b.z = -ez := by linarith
    rw [e1, e2, e3] at hS
    nlinarith

theorem prenormalized_sumsq (h v : ℝ) :
    Real.sin h * Real.cos v * (Real.sin h * Real.cos v) + Real.sin v * Real.sin v
      + -Real.cos h * Real.cos v * (-Real.cos h * Real.cos v) = 1 := by
  have h1 := Real.sin_sq_add_cos_sq h
  have h2 := Real.sin_sq_add_cos_sq v
  nlinarith [h1, h2]

theorem setBaseWindDirection_direction (h v : ℝ) (w : WindSystem ℝ) :
    (setBaseWindDirection Real.sqrt Real.sin Real.cos Real.pi h v w).base.direction =
      ⟨Real.sin (h * Real.pi / 180) * Real.cos (v * Real.pi / 180),
        Real.sin (v * Real.pi / 180),
        -Real.cos (h * Real.pi / 180) * Real.cos (v * Real.pi / 180)⟩ := by
  simp only [setBaseWindDirection, updateWindTarget, prenormalized_sumsq, Real.sqrt_one,
    div_one]

end WindLemmas

section ControlsLemmas

variable {α : Type} [LinearOrderedField α]

theorem resetTugForce_components (c : ControlState α) :
    (resetTugForce c).tugForce.x = decayStep c.tugForce.x ∧
      (resetTugForce c).tugForce.y = decayStep c.tugForce.y := ⟨rfl, rfl⟩

theorem resetTugForce_iterate (n : Nat) (c : ControlState α) :
    (resetTugForce^[n] c).tugForce.x = decayStep^[n] c.tugForce.x ∧
      (resetTugForce^[n] c).tugForce.y = decayStep^[n] c.tugForce.y := by
  induction n with
  | zero => exact ⟨rfl, rfl⟩
  | succ n ih =>
    rw [Function.iterate_succ_apply', Function.iterate_succ_apply',
      Function.iterate_succ_apply']
    obtain ⟨hx, hy⟩ := resetTugForce_components (resetTugForce^[n] c)
    rw [hx, hy, ih.1, ih.2]
    exact ⟨rfl, rfl⟩

theorem decayStep_zero : decayStep (0 : α) = 0 := by
  simp [decayStep]

theorem decayStep_eq (x : α) : decayStep x = if |x| < 0.1 then 0 else x * 0.9 := by
  unfold decayStep
  norm_num

theorem decayStep_abs_le (x : α) : |decayStep x| ≤ |x| := by
  rw [decayStep_eq]
  split_ifs
  · simp
  · rw [abs_mul]
    have h9 : |(0.9 : α)| = 0.9 := abs_of_nonneg (by norm_num)
    rw [h9]
    nlinarith [abs_nonneg x]

theorem decayStep_sign (x : α) :
    (0 ≤ x → 0 ≤ decayStep x) ∧ (x ≤ 0 → decayStep x ≤ 0) := by
  rw [decayStep_eq]
  split_ifs
  · exact ⟨fun _ => le_refl _, fun _ => le_refl _⟩
  · constructor
    · intro h; nlinarith
    · intro h; nlinarith

theorem decayStep_iterate (n : Nat) (x : α) :
    decayStep^[n] x = 0 ∨ decayStep^[n] x = x * 0.9 ^ n := by
  induction n with
  | zero => right; simp
  | succ n ih =>
    rw [Function.iterate_succ_apply']
    rcases ih with h | h
    · left; rw [h, decayStep_zero]
    · rw [h, decayStep_eq]
      split_ifs
      · left; rfl
      · right; rw [pow_succ]; ring

theorem decayStep_iterate_zero (x : α) (hx : |x| ≤ 10) (n : Nat) (hn : 45 ≤ n) :
    decayStep^[n] x = 0 := by
  have h45 : decayStep^[45] x = 0 := by
    rw [Function.iterate_succ_apply']
    rcases decayStep_iterate 44 x with h | h
    · rw [h, decayStep_zero]
    · rw [h, decayStep_eq, if_pos]
      rw [abs_mul, abs_of_nonneg (show (0 : α) ≤ 0.9 ^ 44 by positivity)]
      have hp : (10 : α) * 0.9 ^ 44 < 0.1 := by norm_num
      have hpos : (0 : α) ≤ 0.9 ^ 44 := by positivity
      nlinarith [abs_nonneg x]
  obtain ⟨k, rfl⟩ := Nat.exists_eq_add_of_le hn
  rw [Nat.add_comm, Function.iterate_add_apply, h45]
  exact Function.iterate_fixed decayStep_zero k

theorem sqrt_le_ten (S : ℝ) (h : S ≤ 100) : Real.sqrt S ≤ 10 :=
  (Real.sqrt_le_sqrt h).trans_eq sqrt_hundred

theorem clamp_abs_le (v : α) : |min (MAX_TUG_FORCE : α) (max (-MAX_TUG_FORCE) v)| ≤ 10 := by
  unfold MAX_TUG_FORCE
  rw [abs_le]
  exact ⟨le_min (by norm_num) (le_max_left _ _), min_le_left _ _⟩

end ControlsLemmas

section KiteLemmas

theorem length_pos_iff (v : Vec3 ℝ) :
    0 < Vec3.length Real.sqrt v ↔ 0 < v.x * v.x + v.y * v.y + v.z * v.z := by
  simp only [Vec3.length]
  exact Real.sqrt_pos

theorem normal_dot_edge (q : Quaternion ℝ) :
    Vec3.dot (Vec3.applyQuaternion ⟨0, 0, 1⟩ q) (Vec3.applyQuaternion ⟨1, 0, 0⟩ q) = 0 := by
  simp only [Vec3.dot, Vec3.applyQuaternion]
  ring

theorem edge_dot_edge (q : Quaternion ℝ)
    (hunit : q.x * q.x + q.y * q.y + q.z * q.z + q.w * q.w = 1) :
    Vec3.dot (Vec3.applyQuaternion ⟨1, 0, 0⟩ q) (Vec3.applyQuaternion ⟨1, 0, 0⟩ q) = 1 := by
  have h : Vec3.dot (Vec3.applyQuaternion ⟨1, 0, 0⟩ q) (Vec3.applyQuaternion ⟨1, 0, 0⟩ q)
      = (q.x * q.x + q.y * q.y + q.z * q.z + q.w * q.w) ^ 2 := by
    simp only [Vec3.dot, Vec3.applyQuaternion]
    ring
  rw [h, hunit]
  norm_num

theorem dot_eq_zero_of_cross_eq_zero (n e w : Vec3 ℝ) (hne : Vec3.dot n e = 0)
    (hee : Vec3.dot e e = 1) (hc : Vec3.cross w e = ⟨0, 0, 0⟩) : Vec3.dot n w = 0 := by
  simp only [Vec3.cross, Vec3.mk.injEq] at hc
  obtain ⟨h1, h2, h3⟩ := hc
  simp only [Vec3.dot] at hne hee ⊢
  have key : (n.x * w.x + n.y * w.y + n.z * w.z) * (e.x * e.x + e.y * e.y + e.z * e.z)
      = (w.x * e.x + w.y * e.y + w.z * e.z) * (n.x * e.x + n.y * e.y + n.z * e.z)
        + n.x * (e.y * (w.x * e.y - w.y * e.x) - e.z * (w.z * e.x - w.x * e.z))
        + n.y * (e.z * (w.y * e.z - w.z * e.y) - e.x * (w.x * e.y - w.y * e.x))
        + n.z * (e.x * (w.z * e.x - w.x * e.z) - e.y * (w.y * e.z - w.z * e.y)) := by
    ring
  rw [hee, hne, h1, h2, h3] at key
  linarith

theorem cross_length_pos_of_dot_neg (n e w : Vec3 ℝ) (hne : Vec3.dot n e = 0)
    (hee : Vec3.dot e e = 1) (hdot : Vec3.dot n w < 0) :
    0 < Vec3.length Real.sqrt (Vec3.cross w e) := by
  rcases (Real.sqrt_nonneg _ : 0 ≤ Vec3.length Real.sqrt (Vec3.cross w e)).lt_or_eq
    with hlt | heq
  · exact hlt
  · exfalso
    have h0 := (length_eq_zero_iff _).mp heq.symm
    have := dot_eq_zero_of_cross_eq_zero n e w hne hee h0
    linarith

theorem second_cross_length_pos (w c : Vec3 ℝ)
    (hw : 0 < w.x * w.x + w.y * w.y + w.z * w.z)
    (hc : 0 < Vec3.length Real.sqrt c) (hperp : Vec3.dot w c = 0) :
    0 < Vec3.length Real.sqrt (Vec3.cross w (Vec3.normalize Real.sqrt c)) := by
  have hS : 0 < c.x * c.x + c.y * c.y + c.z * c.z := (length_pos_iff c).mp hc
  have hn : Vec3.normalize Real.sqrt c =
      ⟨c.x * (1 / Vec3.length Real.sqrt c), c.y * (1 / Vec3.length Real.sqrt c),
        c.z * (1 / Vec3.length Real.sqrt c)⟩ := by
    simp only [Vec3.normalize, if_pos hc]
  rw [hn]
  set k := 1 / Vec3.length Real.sqrt c with hk
  have hkpos : 0 < k := by rw [hk]; positivity
  rw [length_pos_iff]
  simp only [Vec3.cross]
  simp only [Vec3.dot] at hperp
  have lag : (w.y * (c.z * k) - w.z * (c.y * k)) * (w.y * (c.z * k) - w.z * (c.y * k))
      + (w.z * (c.x * k) - w.x * (c.z * k)) * (w.z * (c.x * k) - w.x * (c.z * k))
      + (w.x * (c.y * k) - w.y * (c.x * k)) * (w.x * (c.y * k) - w.y * (c.x * k))
      = k * k * ((w.x * w.x + w.y * w.y + w.z * w.z) * (c.x * c.x + c.y * c.y + c.z * c.z)
          - (w.x * c.x + w.y * c.y + w.z * c.z) ^ 2) := by
    ring
  rw [lag, hperp]
  have := mul_pos hw hS
  have hkk := mul_pos hkpos hkpos
  nlinarith [mul_pos hkk this]

theorem wind_dot_cross (w e : Vec3 ℝ) : Vec3.dot w (Vec3.cross w e) = 0 := by
  simp only [Vec3.dot, Vec3.cross]
  ring

theorem sqrt_ninety_thousand : Real.sqrt 90000 = 300 := by
  rw [show (90000 : ℝ) = 300 ^ 2 by norm_num, Real.sqrt_sq (by norm_num)]

theorem applyWindForce_identity_example :
    applyWindForce Real.sqrt identityQuaternion ⟨0, 0, -10⟩
      = [⟨-200, 0, 0⟩, ⟨0, 0, -300⟩] := by
  simp only [applyWindForce, Vec3.applyQuaternion, Vec3.dot, Vec3.cross, Vec3.normalize,
    Vec3.length, Vec3.scale, identityQuaternion]
  norm_num [sqrt_hundred]

end KiteLemmas

section ObstaclesLemmas

theorem segment_point_dist (a b c : Vec3 ℝ) (r t : ℝ) (hr : 0 < r) (Sd sd ss : ℝ)
    (hSd : Sd = (b.x - a.x) * (b.x - a.x) + (b.y - a.y) * (b.y - a.y)
      + (b.z - a.z) * (b.z - a.z))
    (hsd : sd = (c.x - a.x) * (b.x - a.x) + (c.y - a.y) * (b.y - a.y)
      + (c.z - a.z) * (b.z - a.z))
    (hss : ss = (c.x - a.x) * (c.x - a.x) + (c.y - a.y) * (c.y - a.y)
      + (c.z - a.z) * (c.z - a.z)) :
    Vector3.distanceTo Real.sqrt
        (Vector3.add a (Vector3.multiplyScalar (Vector3.sub b a) t)) c < r ↔
      Sd * t ^ 2 - 2 * sd * t + ss < r ^ 2 := by
  simp only [Vector3.distanceTo, Vector3.add, Vector3.multiplyScalar, Vector3.sub]
  rw [Real.sqrt_lt' hr, hSd, hsd, hss]
  have e : (a.x + (b.x - a.x) * t - c.x) * (a.x + (b.x - a.x) * t - c.x)
      + (a.y + (b.y - a.y) * t - c.y) * (a.y + (b.y - a.y) * t - c.y)
      + (a.z + (b.z - a.z) * t - c.z) * (a.z + (b.z - a.z) * t - c.z)
      = ((b.x - a.x) * (b.x - a.x) + (b.y - a.y) * (b.y - a.y) + (b.z - a.z) * (b.z - a.z))
          * t ^ 2
        - 2 * ((c.x - a.x) * (b.x - a.x) + (c.y - a.y) * (b.y - a.y)
            + (c.z - a.z) * (b.z - a.z)) * t
        + ((c.x - a.x) * (c.x - a.x) + (c.y - a.y) * (c.y - a.y)
            + (c.z - a.z) * (c.z - a.z)) := by
    ring
  rw [e]

theorem quadratic_outside_low (Sd sd ss t : ℝ) (hSd : 0 ≤ Sd) (hsd : sd < 0) (ht : 0 ≤ t) :
    Sd * (0 : ℝ) ^ 2 - 2 * sd * 0 + ss ≤ Sd * t ^ 2 - 2 * sd * t + ss := by
  nlinarith [mul_nonneg ht (le_of_lt (neg_pos.mpr hsd)), mul_nonneg hSd (sq_nonneg t)]

theorem quadratic_outside_high (Sd sd ss t : ℝ) (hSd : 0 ≤ Sd) (hsd : Sd < sd) (ht : t ≤ 1) :
    Sd * (1 : ℝ) ^ 2 - 2 * sd * 1 + ss ≤ Sd * t ^ 2 - 2 * sd * t + ss := by
  have h1t : 0 ≤ 1 - t := by linarith
  have h2 : 0 ≤ 2 * sd - (1 + t) * Sd := by nlinarith
  nlinarith [mul_nonneg h1t h2]

theorem quadratic_min (Sd sd ss t : ℝ) (hSd : 0 < Sd) :
    Sd * (sd / Sd) ^ 2 - 2 * sd * (sd / Sd) + ss ≤ Sd * t ^ 2 - 2 * sd * t + ss := by
  have e : Sd * t ^ 2 - 2 * sd * t + ss
      - (Sd * (sd / Sd) ^ 2 - 2 * sd * (sd / Sd) + ss) = Sd * (t - sd / Sd) ^ 2 := by
    field_simp
    ring
  nlinarith [mul_nonneg (le_of_lt hSd) (sq_nonneg (t - sd / Sd))]

theorem lineIntersectsSphere_unfold (a b c : Vec3 ℝ) (r : ℝ) (Sd sd : ℝ)
    (hSd : Sd = (b.x - a.x) * (b.x - a.x) + (b.y - a.y) * (b.y - a.y)
      + (b.z - a.z) * (b.z - a.z))
    (hsd : sd = (c.x - a.x) * (b.x - a.x) + (c.y - a.y) * (b.y - a.y)
      + (c.z - a.z) * (b.z - a.z)) :
    lineIntersectsSphere Real.sqrt a b c r =
      if sd * (1 / (if Real.sqrt Sd = 0 then 1 else Real.sqrt Sd)) < 0 ∨
          sd * (1 / (if Real.sqrt Sd = 0 then 1 else Real.sqrt Sd)) > Real.sqrt Sd then
        decide (Vector3.distanceTo Real.sqrt a c < r)
          || decide (Vector3.distanceTo Real.sqrt b c < r)
      else
        decide (Vector3.distanceTo Real.sqrt
          (Vector3.add a (Vector3.multiplyScalar (Vector3.sub b a)
            (1 / (if Real.sqrt Sd = 0 then 1 else Real.sqrt Sd)
              * (sd * (1 / (if Real.sqrt Sd = 0 then 1 else Real.sqrt Sd)))))) c < r) := by
  have hproj : ∀ k : ℝ, Vector3.dot (Vector3.sub c a)
      (Vector3.multiplyScalar (Vector3.sub b a) k) = sd * k := by
    intro k
    simp only [Vector3.dot, Vector3.sub, Vector3.multiplyScalar, hsd]
    ring
  have hclosest : ∀ k p : ℝ, Vector3.add a
      (Vector3.multiplyScalar (Vector3.multiplyScalar (Vector3.sub b a) k) p)
      = Vector3.add a (Vector3.multiplyScalar (Vector3.sub b a) (k * p)) := by
    intro k p
    simp only [Vector3.add, Vector3.multiplyScalar, mul_assoc]
  have hL : Vector3.length Real.sqrt (Vector3.sub b a) = Real.sqrt Sd := by
    rw [hSd]; rfl
  unfold lineIntersectsSphere
  simp only [Vector3.normalize, hL, hproj, hclosest]

end ObstaclesLemmas

section ScenarioLemmas

theorem tension_scenario :
    calculateStringTension Real.sqrt (createString (⟨0, 0, 0⟩ : Vec3 ℝ)) ⟨12, 16, 0⟩ = 50 := by
  simp only [calculateStringTension, Vec3.distanceTo, Vec3.length, createString,
    BASE_STRING_LENGTH]
  rw [show ((0 : ℝ) - 12) * (0 - 12) + (0 - 16) * (0 - 16) + (0 - 0) * (0 - 0) = 400 by
    norm_num, sqrt_four_hundred]
  norm_num

theorem shortGust_factor_at_half :
    gustFactor { (shortGust : Gust ℝ) with timeRemaining := 0.5 } = 0.625 := by
  simp only [gustFactor, shortGust]
  norm_num

theorem shortGust_factor_above_half (tr : ℝ) (h1 : 0.5 < tr) :
    gustFactor { (shortGust : Gust ℝ) with timeRemaining := tr } = 2 * (1 - tr) := by
  simp only [gustFactor, shortGust]
  rw [if_pos (by norm_num; linarith)]
  rw [min_eq_right]
  · ring
  · rw [div_le_one (by norm_num)]
    linarith

end ScenarioLemmas

section Claims

variable {α : Type} [LinearOrderedField α]

/-! ## String length stays in range -/

/-- C1 (as stated, refuted): the freshly created string has length 15, inside `[5, 30]`,
and `extendString` with the negative amount `-100` leaves the length `-85`, below
`MIN_STRING_LENGTH`. -/
theorem extendString_negative_leaves_range :
    MIN_STRING_LENGTH ≤ (createString (⟨0, 0, 0⟩ : Vec3 ℚ)).length ∧
    (createString (⟨0, 0, 0⟩ : Vec3 ℚ)).length ≤ MAX_STRING_LENGTH ∧
    (extendString (createString (⟨0, 0, 0⟩ : Vec3 ℚ)) (-100)).1.length = -85 ∧
    (extendString (createString (⟨0, 0, 0⟩ : Vec3 ℚ)) (-100)).1.length < MIN_STRING_LENGTH := by
  norm_num [extendString, createString, BASE_STRING_LENGTH, MAX_STRING_LENGTH,
    MIN_STRING_LENGTH]

/-- C1 (amended): for every starting string with length in
`[MIN_STRING_LENGTH, MAX_STRING_LENGTH]` and every finite sequence of `extendString` /
`shortenString` calls whose amounts are non-negative (arbitrarily large ones included),
the length is within `[MIN_STRING_LENGTH, MAX_STRING_LENGTH]` after the sequence; as the
sequence is arbitrary, this holds after every call. -/
theorem length_in_range_of_nonneg_amounts (s : StringState α) (cs : List (LengthCall α))
    (hlo : MIN_STRING_LENGTH ≤ s.length) (hhi : s.length ≤ MAX_STRING_LENGTH)
    (hcs : ∀ c ∈ cs, 0 ≤ c.amount) :
    MIN_STRING_LENGTH ≤ (runLengthCalls cs s).length ∧
      (runLengthCalls cs s).length ≤ MAX_STRING_LENGTH :=
  runLengthCalls_inRange cs s ⟨hlo, hhi⟩ hcs

/-- Witness for C1 (amended): from the fresh string, extend by 100 then shorten by 1000. -/
theorem length_in_range_of_nonneg_amounts_witness :
    MIN_STRING_LENGTH ≤
        (runLengthCalls [LengthCall.extendString 100, LengthCall.shortenString 1000]
          (createString (⟨0, 0, 0⟩ : Vec3 ℚ))).length ∧
      (runLengthCalls [LengthCall.extendString 100, LengthCall.shortenString 1000]
          (createString (⟨0, 0, 0⟩ : Vec3 ℚ))).length ≤ MAX_STRING_LENGTH :=
  length_in_range_of_nonneg_amounts (createString (⟨0, 0, 0⟩ : Vec3 ℚ))
    [LengthCall.extendString 100, LengthCall.shortenString 1000]
    (by norm_num [createString, BASE_STRING_LENGTH, MIN_STRING_LENGTH])
    (by norm_num [createString, BASE_STRING_LENGTH, MAX_STRING_LENGTH])
    (by
      intro c hc
      simp only [List.mem_cons, List.mem_singleton, List.not_mem_nil, or_false] at hc
      rcases hc with rfl | rfl <;> norm_num [LengthCall.amount])

/-! ## String health -/

/-- C2: starting from `currentHealth = 100`, after every finite sequence of
`updateHealthBar`, `damageString` and `repairString` calls with arbitrary arguments the
stored `currentHealth` satisfies `0 ≤ currentHealth ≤ 100`. -/
theorem currentHealth_in_range (cs : List (HealthCall α)) :
    0 ≤ (runHealthCalls cs (initialHealth : HealthState α)).currentHealth ∧
      (runHealthCalls cs (initialHealth : HealthState α)).currentHealth ≤ 100 := by
  have h := runHealthCalls_inRange cs (initialHealth : HealthState α)
    ⟨by norm_num [initialHealth, MAX_HEALTH], le_refl _⟩
  simpa only [HealthInRange, MAX_HEALTH] using h

/-- C3 (as stated, refuted): from health 100, `damageString(100)` takes the health to 0
and a further `damageString(0)`, made while the health is already 0, fires the game-over
signal a second time. -/
theorem gameOver_fired_twice :
    damageTrace [100, 0] (initialHealth : HealthState ℚ) = [0, 0] ∧
      (runDamage [100] (initialHealth : HealthState ℚ)).gameOverCalls = 1 ∧
      (runDamage [100, 0] (initialHealth : HealthState ℚ)).gameOverCalls = 2 := by
  simp only [runDamage, damageTrace, damageString_gameOverCalls, damageString_currentHealth]
  norm_num [initialHealth, MAX_HEALTH]

/-- C3 (amended): for every sequence `as` of `damageString` calls with non-negative amounts
starting from health 100, a next call fires the game-over signal exactly once if the health
after that call is 0 and not at all otherwise, so the number of signals fired is the
number of calls that leave the health at 0. No signal is fired while the health is above
0, the call that takes the health from above 0 to 0 fires the first one, and every
further call made while the health is already 0 leaves it at 0 and fires the signal
again. -/
theorem gameOver_fired_per_call_at_zero (as bs : List α) (a : α)
    (has : ∀ x ∈ as, 0 ≤ x) (hbs : ∀ x ∈ bs, 0 ≤ x) :
    (runDamage (as ++ [a]) (initialHealth : HealthState α)).gameOverCalls =
        (runDamage as (initialHealth : HealthState α)).gameOverCalls
          + (if (runDamage (as ++ [a]) (initialHealth : HealthState α)).currentHealth = 0
              then 1 else 0) ∧
      (runDamage as (initialHealth : HealthState α)).gameOverCalls =
        (damageTrace as (initialHealth : HealthState α)).count 0 ∧
      (0 < (runDamage as (initialHealth : HealthState α)).currentHealth →
        (runDamage as (initialHealth : HealthState α)).gameOverCalls = 0) ∧
      (0 < (runDamage as (initialHealth : HealthState α)).currentHealth →
        (runDamage (as ++ [a]) (initialHealth : HealthState α)).currentHealth = 0 →
        (runDamage (as ++ [a]) (initialHealth : HealthState α)).gameOverCalls = 1) ∧
      ((runDamage as (initialHealth : HealthState α)).currentHealth = 0 →
        (runDamage (as ++ bs) (initialHealth : HealthState α)).currentHealth = 0 ∧
          (runDamage (as ++ bs) (initialHealth : HealthState α)).gameOverCalls =
            (runDamage as (initialHealth : HealthState α)).gameOverCalls + bs.length) := by
  have hstep : (runDamage (as ++ [a]) (initialHealth : HealthState α)).gameOverCalls =
      (runDamage as (initialHealth : HealthState α)).gameOverCalls
        + (if (runDamage (as ++ [a]) (initialHealth : HealthState α)).currentHealth = 0
            then 1 else 0) := by
    rw [runDamage_append]
    exact damageString_gameOverCalls a _
  have hnone : 0 < (runDamage as (initialHealth : HealthState α)).currentHealth →
      (runDamage as (initialHealth : HealthState α)).gameOverCalls = 0 := fun hpos =>
    runDamage_positive as _ has hpos
  refine ⟨hstep, ?_, hnone, fun hpos hz => ?_, fun hz => ?_⟩
  · rw [runDamage_gameOverCalls]
    simp [initialHealth]
  · rw [hstep, hnone hpos, if_pos hz]
  · rw [runDamage_append]
    exact ⟨runDamage_zero_stays bs _ hz hbs, runDamage_at_zero bs _ hz hbs⟩

/-- Witness for C3 (amended): after `damageString(100)` the health is 0 and one signal
has been fired; the two further calls `damageString(0)` and `damageString(5)` fire it
twice more. -/
theorem gameOver_fired_per_call_at_zero_witness :
    (runDamage ([100] ++ [0, 5]) (initialHealth : HealthState ℚ)).gameOverCalls = 3 := by
  have h100 : (runDamage [100] (initialHealth : HealthState ℚ)).currentHealth = 0 := by
    simp only [runDamage, damageString_currentHealth]
    norm_num [initialHealth, MAX_HEALTH]
  have h1 : (runDamage [100] (initialHealth : HealthState ℚ)).gameOverCalls = 1 := by
    simp only [runDamage, damageString_gameOverCalls, damageString_currentHealth]
    norm_num [initialHealth, MAX_HEALTH]
  have h := (gameOver_fired_per_call_at_zero ([100] : List ℚ) [0, 5] 0
    (by intro x hx; simp only [List.mem_singleton] at hx; rw [hx]; norm_num)
    (by
      intro x hx
      simp only [List.mem_cons, List.mem_singleton, List.not_mem_nil, or_false] at hx
      rcases hx with rfl | rfl <;> norm_num)).2.2.2.2 h100
  rw [h.2, h1]
  rfl

/-- C4 (as stated, refuted): once `damageString(100)` has taken the health to 0,
`repairString(10)` raises it to 10. -/
theorem repairString_leaves_zero :
    (damageString 100 (initialHealth : HealthState ℚ)).1.currentHealth = 0 ∧
      (repairString 10 (damageString 100 (initialHealth : HealthState ℚ)).1).1.currentHealth
        = 10 := by
  simp only [repairString_currentHealth, damageString_currentHealth]
  norm_num [initialHealth, MAX_HEALTH]

/-- C4 (amended): once `currentHealth` is 0 it remains 0 after every sequence of
`damageString` calls with non-negative amounts, while `repairString(a)` with `a ≥ 0`
sets it to `min(100, a)`. -/
theorem zero_health_under_damage_and_repair (s : HealthState α) (hs : s.currentHealth = 0) :
    (∀ as : List α, (∀ a ∈ as, 0 ≤ a) → (runDamage as s).currentHealth = 0) ∧
      (∀ a : α, 0 ≤ a → (repairString a s).1.currentHealth = min 100 a) := by
  refine ⟨fun as has => runDamage_zero_stays as s hs has, fun a ha => ?_⟩
  rw [repairString_currentHealth, hs, zero_add]
  unfold MAX_HEALTH
  rw [min_eq_right (min_le_left _ _), max_eq_right (le_min (by norm_num) ha)]

/-- Witness for C4 (amended): the state reached by `damageString(100)` from health 100. -/
theorem zero_health_under_damage_and_repair_witness :
    (∀ as : List ℚ, (∀ a ∈ as, 0 ≤ a) →
        (runDamage as (damageString 100 (initialHealth : HealthState ℚ)).1).currentHealth = 0) ∧
      (∀ a : ℚ, 0 ≤ a →
        (repairString a (damageString 100 (initialHealth : HealthState ℚ)).1).1.currentHealth
          = min 100 a) :=
  zero_health_under_damage_and_repair (damageString 100 (initialHealth : HealthState ℚ)).1
    (by rw [damageString_currentHealth]; norm_num [initialHealth, MAX_HEALTH])

/-- C5 (the code at the failing input): at health 100, `damageString(-50)` returns 150
as the new health while the stored `currentHealth` is 100, so the returned value is not
the stored new health. -/
theorem damageString_negative_amount :
    (damageString (-50) (initialHealth : HealthState ℚ)).1.currentHealth = 100 ∧
      (damageString (-50) (initialHealth : HealthState ℚ)).2 = 150 ∧
      max 0 ((initialHealth : HealthState ℚ).currentHealth - (-50)) = 150 := by
  simp only [damageString_result, damageString_currentHealth]
  norm_num [initialHealth, MAX_HEALTH]

/-- The behaviour of `damageString` on a health in `[0, 100]`: it returns
`max(0, h - a)` and stores `min(100, max(0, h - a))`; for `a ≥ 0` the two agree. -/
theorem damageString_spec (s : HealthState α) (a : α)
    (_hlo : 0 ≤ s.currentHealth) (hhi : s.currentHealth ≤ 100) :
    (damageString a s).2 = max 0 (s.currentHealth - a) ∧
      (damageString a s).1.currentHealth = min 100 (max 0 (s.currentHealth - a)) ∧
      (0 ≤ a → (damageString a s).1.currentHealth = max 0 (s.currentHealth - a) ∧
        (damageString a s).2 = (damageString a s).1.currentHealth) := by
  have hst : (damageString a s).1.currentHealth = min 100 (max 0 (s.currentHealth - a)) := by
    rw [damageString_currentHealth]
    unfold MAX_HEALTH
    exact max_eq_right (le_min (by norm_num) (le_max_left _ _))
  refine ⟨rfl, hst, fun ha => ?_⟩
  have hle : max 0 (s.currentHealth - a) ≤ 100 := max_le (by norm_num) (by linarith)
  rw [hst, min_eq_right hle]
  exact ⟨rfl, rfl⟩

/-- An instance of `damageString_spec`: health 100 and damage 30. -/
theorem damageString_spec_witness :
    (damageString 30 (initialHealth : HealthState ℚ)).2
        = max 0 ((initialHealth : HealthState ℚ).currentHealth - 30) ∧
      (damageString 30 (initialHealth : HealthState ℚ)).1.currentHealth
        = min 100 (max 0 ((initialHealth : HealthState ℚ).currentHealth - 30)) ∧
      ((0 : ℚ) ≤ 30 → (damageString 30 (initialHealth : HealthState ℚ)).1.currentHealth
          = max 0 ((initialHealth : HealthState ℚ).currentHealth - 30) ∧
        (damageString 30 (initialHealth : HealthState ℚ)).2
          = (damageString 30 (initialHealth : HealthState ℚ)).1.currentHealth) :=
  damageString_spec (initialHealth : HealthState ℚ) 30
    (by norm_num [initialHealth, MAX_HEALTH]) (by norm_num [initialHealth, MAX_HEALTH])

/-- C6 (the code at the failing input): at health 100, `repairString(-150)` returns -50
as the new health while the stored `currentHealth` is 0, so the returned value is not the
stored new health. -/
theorem repairString_negative_amount :
    (repairString (-150) (initialHealth : HealthState ℚ)).1.currentHealth = 0 ∧
      (repairString (-150) (initialHealth : HealthState ℚ)).2 = -50 ∧
      min 100 ((initialHealth : HealthState ℚ).currentHealth + (-150)) = -50 := by
  simp only [repairString_result, repairString_currentHealth]
  norm_num [initialHealth, MAX_HEALTH]

/-- The behaviour of `repairString` on a health in `[0, 100]`: it returns
`min(100, h + a)` and stores `max(0, min(100, h + a))`; for `a ≥ 0` the two agree. -/
theorem repairString_spec (s : HealthState α) (a : α)
    (hlo : 0 ≤ s.currentHealth) (_hhi : s.currentHealth ≤ 100) :
    (repairString a s).2 = min 100 (s.currentHealth + a) ∧
      (repairString a s).1.currentHealth = max 0 (min 100 (s.currentHealth + a)) ∧
      (0 ≤ a → (repairString a s).1.currentHealth = min 100 (s.currentHealth + a) ∧
        (repairString a s).2 = (repairString a s).1.currentHealth) := by
  have hst : (repairString a s).1.currentHealth = max 0 (min 100 (s.currentHealth + a)) := by
    rw [repairString_currentHealth]
    unfold MAX_HEALTH
    rw [min_eq_right (min_le_left _ _)]
  refine ⟨rfl, hst, fun ha => ?_⟩
  have hge : (0 : α) ≤ min 100 (s.currentHealth + a) := le_min (by norm_num) (by linarith)
  rw [hst, max_eq_right hge]
  exact ⟨rfl, rfl⟩

/-- An instance of `repairString_spec`: health 60 repaired by 25 gives 85. -/
theorem repairString_spec_witness :
    (repairString 25 (damageString 40 (initialHealth : HealthState ℚ)).1).1.currentHealth
      = 85 := by
  have h60 : (damageString 40 (initialHealth : HealthState ℚ)).1.currentHealth = 60 := by
    rw [damageString_currentHealth]; norm_num [initialHealth, MAX_HEALTH]
  have h := repairString_spec (damageString 40 (initialHealth : HealthState ℚ)).1 25
    (by rw [h60]; norm_num) (by rw [h60]; norm_num)
  rw [h.2.1, h60]
  norm_num

/-! ## String tension -/

/-- C7: for every kite position, anchor position, string length and tug-force vector,
`calculateStringTension` returns `max(0, (d - length) * 10) + |tugForce|`, where `d` is the
Euclidean distance between kite and anchor; with the anchor at the origin, the kite at
distance 20, length 15 and zero tug force the tension is 50. -/
theorem calculateStringTension_formula (string : StringState ℝ) (kitePos : Vec3 ℝ) :
    calculateStringTension Real.sqrt string kitePos =
        max 0 ((Real.sqrt ((kitePos.x - string.anchorPos.x) ^ 2
            + (kitePos.y - string.anchorPos.y) ^ 2
            + (kitePos.z - string.anchorPos.z) ^ 2) - string.length) * 10)
          + Real.sqrt (string.tugForce.x ^ 2 + string.tugForce.y ^ 2 + string.tugForce.z ^ 2) ∧
      (string.anchorPos = ⟨0, 0, 0⟩ → string.length = 15 → string.tugForce = ⟨0, 0, 0⟩ →
        Real.sqrt (kitePos.x ^ 2 + kitePos.y ^ 2 + kitePos.z ^ 2) = 20 →
        calculateStringTension Real.sqrt string kitePos = 50) := by
  have hd : (string.anchorPos.x - kitePos.x) * (string.anchorPos.x - kitePos.x)
      + (string.anchorPos.y - kitePos.y) * (string.anchorPos.y - kitePos.y)
      + (string.anchorPos.z - kitePos.z) * (string.anchorPos.z - kitePos.z)
      = (kitePos.x - string.anchorPos.x) ^ 2 + (kitePos.y - string.anchorPos.y) ^ 2
        + (kitePos.z - string.anchorPos.z) ^ 2 := by ring
  have ht : string.tugForce.x * string.tugForce.x + string.tugForce.y * string.tugForce.y
      + string.tugForce.z * string.tugForce.z
      = string.tugForce.x ^ 2 + string.tugForce.y ^ 2 + string.tugForce.z ^ 2 := by ring
  have hformula : calculateStringTension Real.sqrt string kitePos =
      max 0 ((Real.sqrt ((kitePos.x - string.anchorPos.x) ^ 2
          + (kitePos.y - string.anchorPos.y) ^ 2
          + (kitePos.z - string.anchorPos.z) ^ 2) - string.length) * 10)
        + Real.sqrt (string.tugForce.x ^ 2 + string.tugForce.y ^ 2 + string.tugForce.z ^ 2) := by
    simp only [calculateStringTension, Vec3.distanceTo, Vec3.length]
    rw [hd, ht]
  refine ⟨hformula, fun ha hl hz hk => ?_⟩
  rw [hformula, ha, hl, hz]
  simp only [sub_zero]
  rw [hk]
  norm_num

/-- Witness for C7: the fresh string anchored at the origin and the kite at `(12, 16, 0)`,
at distance 20. -/
theorem calculateStringTension_formula_witness :
    calculateStringTension Real.sqrt (createString (⟨0, 0, 0⟩ : Vec3 ℝ)) ⟨12, 16, 0⟩ = 50 :=
  (calculateStringTension_formula (createString (⟨0, 0, 0⟩ : Vec3 ℝ)) ⟨12, 16, 0⟩).2 rfl
    (by norm_num [createString, BASE_STRING_LENGTH]) rfl
    (by
      rw [show ((12 : ℝ) ^ 2 + 16 ^ 2 + 0 ^ 2) = 400 by norm_num]
      exact sqrt_four_hundred)

/-- C8: for every kite position, anchor position, string length and tug-force vector,
`calculateStringTension` returns a value `≥ 0`; when the tug force is the zero vector and
the kite-anchor distance is at most `string.length`, it returns exactly 0. -/
theorem calculateStringTension_nonneg (string : StringState ℝ) (kitePos : Vec3 ℝ) :
    0 ≤ calculateStringTension Real.sqrt string kitePos ∧
      (string.tugForce = ⟨0, 0, 0⟩ →
        Vec3.distanceTo Real.sqrt kitePos string.anchorPos ≤ string.length →
        calculateStringTension Real.sqrt string kitePos = 0) := by
  refine ⟨?_, fun hz hd => ?_⟩
  · simp only [calculateStringTension, Vec3.length]
    exact add_nonneg (le_max_left _ _) (Real.sqrt_nonneg _)
  · simp only [calculateStringTension, Vec3.length, hz]
    have h1 : (Vec3.distanceTo Real.sqrt kitePos string.anchorPos - string.length) * 10 ≤ 0 := by
      have : Vec3.distanceTo Real.sqrt kitePos string.anchorPos - string.length ≤ 0 := by
        linarith
      nlinarith
    rw [max_eq_left h1]
    norm_num

/-- Witness for C8: the fresh string (length 15, no tug force) anchored at the origin and
the kite at `(3, 4, 0)`, at distance 5. -/
theorem calculateStringTension_nonneg_witness :
    calculateStringTension Real.sqrt (createString (⟨0, 0, 0⟩ : Vec3 ℝ)) ⟨3, 4, 0⟩ = 0 :=
  (calculateStringTension_nonneg (createString (⟨0, 0, 0⟩ : Vec3 ℝ)) ⟨3, 4, 0⟩).2 rfl
    (by
      simp only [Vec3.distanceTo, createString, BASE_STRING_LENGTH]
      rw [show ((0 : ℝ) - 3) * (0 - 3) + (0 - 4) * (0 - 4) + (0 - 0) * (0 - 0) = 25 by norm_num,
        sqrt_twenty_five]
      norm_num)

/-- C9: on every `updateString` call the stored tension is the tension computed from the
current kite position; if it exceeds `STRING_TENSION_THRESHOLD` (20) the health module is
left in the state `damageString((tension - 20) * 0.1)` produces from the previous one (one
call), and otherwise the health state is unchanged. With the fresh string anchored at the
origin, the kite at distance 20 and health 100 the damage is 3 and the health becomes 97;
a second tick with the kite still there takes it to 94. -/
theorem updateString_damage (string : StringState ℝ) (kitePos : Vec3 ℝ) (dt : ℝ)
    (health : HealthState ℝ) :
    (updateString Real.sqrt string kitePos dt health).string.tension
        = calculateStringTension Real.sqrt string kitePos ∧
      (calculateStringTension Real.sqrt string kitePos > 20 →
        (updateString Real.sqrt string kitePos dt health).health
          = (damageString ((calculateStringTension Real.sqrt string kitePos - 20) * 0.1)
              health).1) ∧
      (calculateStringTension Real.sqrt string kitePos ≤ 20 →
        (updateString Real.sqrt string kitePos dt health).health = health) ∧
      (updateString Real.sqrt (createString ⟨0, 0, 0⟩) ⟨12, 16, 0⟩ dt
          initialHealth).health.currentHealth = 97 ∧
      (updateString Real.sqrt
          (updateString Real.sqrt (createString ⟨0, 0, 0⟩) ⟨12, 16, 0⟩ dt initialHealth).string
          ⟨12, 16, 0⟩ dt
          (updateString Real.sqrt (createString ⟨0, 0, 0⟩) ⟨12, 16, 0⟩ dt
            initialHealth).health).health.currentHealth = 94 := by
  have h50 : calculateStringTension Real.sqrt (createString (⟨0, 0, 0⟩ : Vec3 ℝ)) ⟨12, 16, 0⟩
      = 50 := by
    simp only [calculateStringTension, Vec3.distanceTo, Vec3.length, createString,
      BASE_STRING_LENGTH]
    rw [show ((0 : ℝ) - 12) * (0 - 12) + (0 - 16) * (0 - 16) + (0 - 0) * (0 - 0) = 400 by
      norm_num, sqrt_four_hundred]
    norm_num
  have h97 : (updateString Real.sqrt (createString ⟨0, 0, 0⟩) ⟨12, 16, 0⟩ dt
      initialHealth).health.currentHealth = 97 := by
    rw [updateString_health, h50, if_pos (by norm_num [STRING_TENSION_THRESHOLD]),
      damageString_currentHealth]
    norm_num [initialHealth, MAX_HEALTH, STRING_TENSION_THRESHOLD]
  refine ⟨updateString_tension _ _ _ _ _, fun hgt => ?_, fun hle => ?_, h97, ?_⟩
  · rw [updateString_health, if_pos (by simpa only [STRING_TENSION_THRESHOLD] using hgt)]
    rfl
  · rw [updateString_health, if_neg (by simpa only [STRING_TENSION_THRESHOLD, not_lt] using hle)]
  · obtain ⟨hl, ha, ht⟩ := updateString_frame Real.sqrt (createString (⟨0, 0, 0⟩ : Vec3 ℝ))
      ⟨12, 16, 0⟩ dt initialHealth
    rw [updateString_health, calculateStringTension_congr Real.sqrt _ _ _ hl ha ht, h50,
      if_pos (by norm_num [STRING_TENSION_THRESHOLD]), damageString_currentHealth, h97]
    norm_num [MAX_HEALTH, STRING_TENSION_THRESHOLD]

/-- Witness for C9: with the kite at `(3, 4, 0)`, at distance 5 from the origin, the fresh
string is slack (tension 0) and a tick leaves the health state unchanged. -/
theorem updateString_damage_witness :
    (updateString Real.sqrt (createString (⟨0, 0, 0⟩ : Vec3 ℝ)) ⟨3, 4, 0⟩ (1 / 60)
      initialHealth).health = initialHealth :=
  (updateString_damage (createString (⟨0, 0, 0⟩ : Vec3 ℝ)) ⟨3, 4, 0⟩ (1 / 60)
    initialHealth).2.2.1
    (by
      simp only [calculateStringTension, Vec3.distanceTo, Vec3.length, createString,
        BASE_STRING_LENGTH]
      rw [show ((0 : ℝ) - 3) * (0 - 3) + (0 - 4) * (0 - 4) + (0 - 0) * (0 - 0) = 25 by norm_num,
        sqrt_twenty_five]
      norm_num)

/-! ## String sample points -/

/-- C10: for every anchor position, kite position and tension, after `updateStringVisual`
(on a string with its `STRING_SEGMENTS` points) the first sample point is the anchor
position and the last one, `points[STRING_SEGMENTS - 1]`, is the kite position, in all
three coordinates and whatever the sag term. -/
theorem updateStringVisual_endpoints (string : StringState α) (kitePos : Vec3 α)
    (hlen : string.points.length = STRING_SEGMENTS) :
    (updateStringVisual string kitePos).points[0]? = some string.anchorPos ∧
      (updateStringVisual string kitePos).points[STRING_SEGMENTS - 1]? = some kitePos := by
  rw [updateStringVisual_points string kitePos hlen]
  have h0 : stringPoint string kitePos 0 = string.anchorPos := by
    obtain ⟨cd, ⟨ax, ay, az⟩, pts, len, ten, tug⟩ := string
    simp [stringPoint]
  have h9 : stringPoint string kitePos (STRING_SEGMENTS - 1) = kitePos := by
    obtain ⟨cd, ⟨ax, ay, az⟩, pts, len, ten, tug⟩ := string
    obtain ⟨kx, ky, kz⟩ := kitePos
    simp only [stringPoint, STRING_SEGMENTS]
    norm_num
  constructor
  · rw [List.getElem?_map, List.getElem?_range (by decide), Option.map_some', h0]
  · rw [List.getElem?_map, List.getElem?_range (by decide), Option.map_some', h9]

/-- Witness for C10: the fresh string anchored at `(1, 2, 3)` and the kite at `(4, 5, 6)`. -/
theorem updateStringVisual_endpoints_witness :
    (updateStringVisual (createString (⟨1, 2, 3⟩ : Vec3 ℚ)) ⟨4, 5, 6⟩).points[0]?
        = some (createString (⟨1, 2, 3⟩ : Vec3 ℚ)).anchorPos ∧
      (updateStringVisual (createString (⟨1, 2, 3⟩ : Vec3 ℚ)) ⟨4, 5, 6⟩).points[
        STRING_SEGMENTS - 1]? = some ⟨4, 5, 6⟩ :=
  updateStringVisual_endpoints (createString (⟨1, 2, 3⟩ : Vec3 ℚ)) ⟨4, 5, 6⟩ rfl

/-- C11: for every anchor, kite position and tension, `updateStringVisual` (on a string
with its `STRING_SEGMENTS` points) produces exactly 10 points; point `i` (`t = i/9`) has
`x` and `z` linearly interpolated between anchor and kite and `y` equal to the linearly
interpolated `y` minus `t*(1-t) * (1 - min(1, tension/5)) * 2`. Raising the tension never
lowers a sample point (the sag is non-increasing in tension), and for `tension ≥ 5` every
point lies on the straight anchor-kite segment. -/
theorem updateStringVisual_samples (string : StringState α) (kitePos : Vec3 α)
    (hlen : string.points.length = STRING_SEGMENTS) :
    (updateStringVisual string kitePos).points.length = 10 ∧
      (∀ i : Nat, i < 10 →
        (updateStringVisual string kitePos).points[i]? = some
          ⟨string.anchorPos.x + ((i : α) / 9) * (kitePos.x - string.anchorPos.x),
            (string.anchorPos.y + ((i : α) / 9) * (kitePos.y - string.anchorPos.y))
              - ((i : α) / 9) * (1 - (i : α) / 9) * (1 - min 1 (string.tension / 5)) * 2,
            string.anchorPos.z + ((i : α) / 9) * (kitePos.z - string.anchorPos.z)⟩) ∧
      (∀ (T1 T2 : α), T1 ≤ T2 → ∀ (i : Nat) (p1 p2 : Vec3 α), i < 10 →
        (updateStringVisual { string with tension := T1 } kitePos).points[i]? = some p1 →
        (updateStringVisual { string with tension := T2 } kitePos).points[i]? = some p2 →
        p1.x = p2.x ∧ p1.z = p2.z ∧ p1.y ≤ p2.y ∧
          p2.y ≤ string.anchorPos.y + ((i : α) / 9) * (kitePos.y - string.anchorPos.y)) ∧
      (5 ≤ string.tension → ∀ i : Nat, i < 10 →
        (updateStringVisual string kitePos).points[i]? = some
          ⟨string.anchorPos.x + ((i : α) / 9) * (kitePos.x - string.anchorPos.x),
            string.anchorPos.y + ((i : α) / 9) * (kitePos.y - string.anchorPos.y),
            string.anchorPos.z + ((i : α) / 9) * (kitePos.z - string.anchorPos.z)⟩) := by
  refine ⟨?_, ?_, ?_, ?_⟩
  · rw [updateStringVisual_points string kitePos hlen]
    simp [STRING_SEGMENTS]
  · intro i hi
    rw [updateStringVisual_getElem string kitePos hlen i hi, stringPoint_eq]
  · intro T1 T2 hT i p1 p2 hi h1 h2
    rw [updateStringVisual_getElem { string with tension := T1 } kitePos hlen i hi,
      stringPoint_eq] at h1
    rw [updateStringVisual_getElem { string with tension := T2 } kitePos hlen i hi,
      stringPoint_eq] at h2
    simp only [Option.some.injEq] at h1 h2
    subst h1 h2
    have hsf := sample_parameter_bounds (α := α) i hi
    have hmin : min 1 (T1 / 5) ≤ min 1 (T2 / 5) :=
      min_le_min (le_refl _) (div_le_div_of_nonneg_right hT (by norm_num))
    have hle : min 1 (T2 / 5) ≤ (1 : α) := min_le_left _ _
    refine ⟨rfl, rfl, ?_, ?_⟩
    · simp only []
      have := mul_le_mul_of_nonneg_left
        (show (1 - min 1 (T2 / 5)) * 2 ≤ (1 - min 1 (T1 / 5)) * 2 by linarith) hsf
      linarith
    · simp only []
      have := mul_nonneg hsf (show (0 : α) ≤ (1 - min 1 (T2 / 5)) * 2 by linarith)
      linarith
  · intro hT i hi
    rw [updateStringVisual_getElem string kitePos hlen i hi, stringPoint_eq]
    have hmin : min 1 (string.tension / 5) = 1 :=
      min_eq_left (by rw [le_div_iff₀ (by norm_num)]; linarith)
    rw [hmin]
    simp

/-- Witness for C11: the fresh string (tension 0) anchored at the origin and the kite at
`(9, 18, 27)`; sample 3 is `(3, 6 - 4/9, 9)`. -/
theorem updateStringVisual_samples_witness :
    (updateStringVisual (createString (⟨0, 0, 0⟩ : Vec3 ℚ)) ⟨9, 18, 27⟩).points.length = 10 ∧
      (updateStringVisual (createString (⟨0, 0, 0⟩ : Vec3 ℚ)) ⟨9, 18, 27⟩).points[3]?
        = some ⟨3, 6 - 4 / 9, 9⟩ := by
  have h := updateStringVisual_samples (createString (⟨0, 0, 0⟩ : Vec3 ℚ)) ⟨9, 18, 27⟩ rfl
  refine ⟨h.1, ?_⟩
  rw [h.2.1 3 (by norm_num)]
  norm_num [createString]

/-- C12 (the code at the failing input): with the anchor at the origin, the kite at
`(0, 10, 0)` and tug force `(3, 4, 0)` (magnitude 5), `applyTugForce` hands the kite the
force `(0, -5, 0)`, which points from the kite to the anchor, not `(0, 5, 0)`; with zero
tug force it applies none. -/
theorem applyTugForce_points_to_anchor :
    applyTugForce Real.sqrt (setStringTugForce (createString (⟨0, 0, 0⟩ : Vec3 ℝ)) ⟨3, 4, 0⟩)
        ⟨0, 10, 0⟩ = some ⟨0, -5, 0⟩ ∧
      ∀ kitePos : Vec3 ℝ,
        applyTugForce Real.sqrt (createString (⟨0, 0, 0⟩ : Vec3 ℝ)) kitePos = none := by
  constructor
  · have h5 : Real.sqrt ((3 : ℝ) * 3 + 4 * 4 + 0 * 0) = 5 := by
      rw [show ((3 : ℝ) * 3 + 4 * 4 + 0 * 0) = 25 by norm_num, sqrt_twenty_five]
    have h10 : Real.sqrt (((0 : ℝ) - 0) * (0 - 0) + (0 - 10) * (0 - 10) + (0 - 0) * (0 - 0))
        = 10 := by
      rw [show (((0 : ℝ) - 0) * (0 - 0) + (0 - 10) * (0 - 10) + (0 - 0) * (0 - 0)) = 100 by
        norm_num, sqrt_hundred]
    simp only [applyTugForce, setStringTugForce, createString, Vec3.length, Vec3.normalize,
      Vec3.vsub, Vec3.scale, h5, h10]
    norm_num
  · intro kitePos
    simp [applyTugForce, createString, Vec3.length]

/-! ## Wind -/

/-- C13: for every time step, difficulty, random draws and wind state, one `updateWind`
step sets `current` to `current_old + 0.1 * (target - current_old)` componentwise, where
`target` is the target the step leaves behind, and so moves `current` by at most the
Euclidean distance to that target. -/
theorem updateWind_smoothing (draws : GustDraws ℝ) (dt gameTime difficulty : ℝ)
    (w : WindSystem ℝ) :
    (updateWind Real.sqrt Real.sin Real.cos draws dt gameTime difficulty w).current =
        ⟨w.current.x + 0.1 *
            ((updateWind Real.sqrt Real.sin Real.cos draws dt gameTime difficulty w).target.x
              - w.current.x),
          w.current.y + 0.1 *
            ((updateWind Real.sqrt Real.sin Real.cos draws dt gameTime difficulty w).target.y
              - w.current.y),
          w.current.z + 0.1 *
            ((updateWind Real.sqrt Real.sin Real.cos draws dt gameTime difficulty w).target.z
              - w.current.z)⟩ ∧
      Vec3.length Real.sqrt
          (Vec3.vsub (updateWind Real.sqrt Real.sin Real.cos draws dt gameTime difficulty w).current
            w.current) ≤
        Vec3.length Real.sqrt
          (Vec3.vsub (updateWind Real.sqrt Real.sin Real.cos draws dt gameTime difficulty w).target
            w.current) := by
  have hc := updateWind_current Real.sqrt Real.sin Real.cos draws dt gameTime difficulty w
  constructor
  · rw [hc]
    congr 1 <;> ring
  · simp only [Vec3.length, Vec3.vsub, hc]
    apply Real.sqrt_le_sqrt
    nlinarith [mul_self_nonneg
        ((updateWind Real.sqrt Real.sin Real.cos draws dt gameTime difficulty w).target.x
          - w.current.x),
      mul_self_nonneg
        ((updateWind Real.sqrt Real.sin Real.cos draws dt gameTime difficulty w).target.y
          - w.current.y),
      mul_self_nonneg
        ((updateWind Real.sqrt Real.sin Real.cos draws dt gameTime difficulty w).target.z
          - w.current.z)]

/-- C14 (amended): for every `updateWind` step during which a gust is active and remains
active after the step, the resulting target equals
`baseDirection * baseStrength + gust.direction * gust.strength * gustFactor`, with the
gust factor taken at the decreased `timeRemaining`; the noise variation is not part of the
target while a gust is active. -/
theorem updateWind_target_during_gust (sqrt sin cos : α → α) (draws : GustDraws α)
    (dt gameTime difficulty : α) (w : WindSystem α)
    (hact : w.gust.active = true) (hrem : 0 < w.gust.timeRemaining - dt) :
    (updateWind sqrt sin cos draws dt gameTime difficulty w).gust.active = true ∧
      (updateWind sqrt sin cos draws dt gameTime difficulty w).gust.timeRemaining
        = w.gust.timeRemaining - dt ∧
      (updateWind sqrt sin cos draws dt gameTime difficulty w).target =
        ⟨w.base.direction.x * w.base.strength + w.gust.direction.x * w.gust.strength
            * gustFactor (updateWind sqrt sin cos draws dt gameTime difficulty w).gust,
          w.base.direction.y * w.base.strength + w.gust.direction.y * w.gust.strength
            * gustFactor (updateWind sqrt sin cos draws dt gameTime difficulty w).gust,
          w.base.direction.z * w.base.strength + w.gust.direction.z * w.gust.strength
            * gustFactor (updateWind sqrt sin cos draws dt gameTime difficulty w).gust⟩ := by
  obtain ⟨ht, hg⟩ := updateWind_of_active sqrt sin cos draws dt gameTime difficulty w hact
  rw [ht, hg, updateWindGusts_active_step sqrt draws dt difficulty w hact,
    if_neg (not_le.mpr hrem), updateWindTarget_target]
  simp only [updateWindTarget, hact, if_true]
  exact ⟨trivial, trivial, trivial⟩

/-- Witness for C14 (amended): the gusty wind system stepped by 1 s; the gust stays
active with 0.5 s remaining. -/
theorem updateWind_target_during_gust_witness :
    (updateWind Real.sqrt Real.sin Real.cos ⟨0, 0, 0, 0, 0, 0⟩ 1 0 0
        (gustyWindSystem Real.pi)).gust.timeRemaining = 0.5 :=
  (updateWind_target_during_gust Real.sqrt Real.sin Real.cos ⟨0, 0, 0, 0, 0, 0⟩ 1 0 0
    (gustyWindSystem Real.pi) rfl
    (by norm_num [gustyWindSystem])).2.1.trans (by norm_num [gustyWindSystem])

/-- C14 (as stated, refuted): stepping the gusty wind system by 1 s at difficulty 0 keeps
the gust active; the noise offset of that step has x-component 0.5, so the claimed target
x-component is 0.5, but the target the step leaves has x-component 0. -/
theorem updateWind_target_drops_variation :
    (updateWind Real.sqrt Real.sin Real.cos ⟨0, 0, 0, 0, 0, 0⟩ 1 0 0
        (gustyWindSystem Real.pi)).gust.active = true ∧
      (updateWind Real.sqrt Real.sin Real.cos ⟨0, 0, 0, 0, 0, 0⟩ 1 0 0
        (gustyWindSystem Real.pi)).target.x = 0 ∧
      (gustyWindSystem Real.pi).base.direction.x * (gustyWindSystem Real.pi).base.strength
        + (windVariationVector Real.sin Real.cos
            (updateWind Real.sqrt Real.sin Real.cos ⟨0, 0, 0, 0, 0, 0⟩ 1 0 0
              (gustyWindSystem Real.pi)).variation 0).x
        + (gustyWindSystem Real.pi).gust.direction.x * (gustyWindSystem Real.pi).gust.strength
          * gustFactor (updateWind Real.sqrt Real.sin Real.cos ⟨0, 0, 0, 0, 0, 0⟩ 1 0 0
              (gustyWindSystem Real.pi)).gust = 0.5 := by
  have hact : (gustyWindSystem Real.pi).gust.active = true := rfl
  obtain ⟨ht, hg⟩ := updateWind_of_active Real.sqrt Real.sin Real.cos ⟨0, 0, 0, 0, 0, 0⟩ 1 0 0
    (gustyWindSystem Real.pi) hact
  have hstep := updateWindGusts_active_step Real.sqrt ⟨0, 0, 0, 0, 0, 0⟩ 1 0
    (gustyWindSystem Real.pi) hact
  have hrem : ¬ ((gustyWindSystem Real.pi).gust.timeRemaining - 1 ≤ 0) := by
    norm_num [gustyWindSystem]
  rw [if_neg hrem] at hstep
  have hvar : (updateWind Real.sqrt Real.sin Real.cos ⟨0, 0, 0, 0, 0, 0⟩ 1 0 0
      (gustyWindSystem Real.pi)).variation =
      ⟨0 + 1 * WIND_VARIATION_SPEED, Real.pi / 2 - 0.15, 2 * Real.pi - 0.35, 0⟩ := by
    rw [updateWind_variation]
    rfl
  refine ⟨?_, ?_, ?_⟩
  · rw [hg, hstep]; rfl
  · rw [ht, hstep, updateWindTarget_target]
    simp [gustyWindSystem]
  · rw [hvar]
    have hs : Real.sin ((0 + 1 * (0.5 : ℝ)) * 0.3 + (Real.pi / 2 - 0.15)) = 1 := by
      rw [show (0 + 1 * (0.5 : ℝ)) * 0.3 + (Real.pi / 2 - 0.15) = Real.pi / 2 by ring]
      exact Real.sin_pi_div_two
    have hc : Real.cos ((0 + 1 * (0.5 : ℝ)) * 0.7 + (2 * Real.pi - 0.35)) = 1 := by
      rw [show (0 + 1 * (0.5 : ℝ)) * 0.7 + (2 * Real.pi - 0.35) = 2 * Real.pi by ring]
      exact Real.cos_two_pi
    simp only [windVariationVector, WIND_VARIATION_SPEED, hs, hc, gustyWindSystem]
    norm_num

/-- C15: for every active gust and every `dt > 0`, one `updateWindGusts` step sets
`timeRemaining` to `timeRemaining - dt` (strictly smaller), leaves the gust active iff the
new `timeRemaining` is positive and deactivates it iff the new `timeRemaining ≤ 0`; whatever
the random draws, no new gust is started and the gust's duration, strength, direction and
transition times are unchanged. -/
theorem updateWindGusts_active_gust (sqrt : α → α) (draws : GustDraws α) (dt difficulty : α)
    (w : WindSystem α) (hact : w.gust.active = true) (hdt : 0 < dt) :
    (updateWindGusts sqrt draws dt difficulty w).gust.timeRemaining
        = w.gust.timeRemaining - dt ∧
      (updateWindGusts sqrt draws dt difficulty w).gust.timeRemaining < w.gust.timeRemaining ∧
      ((updateWindGusts sqrt draws dt difficulty w).gust.active = true ↔
        0 < (updateWindGusts sqrt draws dt difficulty w).gust.timeRemaining) ∧
      ((updateWindGusts sqrt draws dt difficulty w).gust.active = false ↔
        (updateWindGusts sqrt draws dt difficulty w).gust.timeRemaining ≤ 0) ∧
      (updateWindGusts sqrt draws dt difficulty w).gust.duration = w.gust.duration ∧
      (updateWindGusts sqrt draws dt difficulty w).gust.strength = w.gust.strength ∧
      (updateWindGusts sqrt draws dt difficulty w).gust.direction = w.gust.direction ∧
      (updateWindGusts sqrt draws dt difficulty w).gust.transitionIn = w.gust.transitionIn ∧
      (updateWindGusts sqrt draws dt difficulty w).gust.transitionOut
        = w.gust.transitionOut := by
  rw [updateWindGusts_active_step sqrt draws dt difficulty w hact]
  by_cases h : w.gust.timeRemaining - dt ≤ 0
  · rw [if_pos h]
    simp only [updateWindTarget]
    refine ⟨trivial, by linarith, ?_, ?_, trivial, trivial, trivial, trivial, trivial⟩
    · simp only [Bool.false_eq_true, false_iff, not_lt]; exact h
    · simp only [true_iff]; exact h
  · rw [if_neg h]
    simp only [updateWindTarget, hact]
    refine ⟨trivial, by linarith, ?_, ?_, trivial, trivial, trivial, trivial, trivial⟩
    · simp only [true_iff]; exact not_le.mp h
    · simp only [Bool.true_eq_false, false_iff]; exact h

/-- Witness for C15: the gusty wind system (1.5 s remaining) stepped by 1 s. -/
theorem updateWindGusts_active_gust_witness :
    (updateWindGusts Real.sqrt ⟨0, 0, 0, 0, 0, 0⟩ 1 0
        (gustyWindSystem Real.pi)).gust.timeRemaining = 0.5 :=
  (updateWindGusts_active_gust Real.sqrt ⟨0, 0, 0, 0, 0, 0⟩ 1 0 (gustyWindSystem Real.pi) rfl
    (by norm_num)).1.trans (by norm_num [gustyWindSystem])

/-- C16: for every gust duration in `[1, 3]` with `transitionIn = 0.5` and
`transitionOut = 0.8`, the gust factor of `updateWindTarget` is 0 at the start of the gust
(`timeRemaining = duration`), 0 at its end (`timeRemaining = 0`), and exactly 1 whenever the
elapsed time `duration - timeRemaining` lies in `[transitionIn, duration - transitionOut]`. -/
theorem gustFactor_profile (gust : Gust α) (hin : gust.transitionIn = 0.5)
    (hout : gust.transitionOut = 0.8) (hlo : 1 ≤ gust.duration) (_hhi : gust.duration ≤ 3) :
    gustFactor { gust with timeRemaining := gust.duration } = 0 ∧
      gustFactor { gust with timeRemaining := 0 } = 0 ∧
      (∀ timeRemaining : α, gust.transitionIn ≤ gust.duration - timeRemaining →
        gust.duration - timeRemaining ≤ gust.duration - gust.transitionOut →
        gustFactor { gust with timeRemaining := timeRemaining } = 1) := by
  refine ⟨?_, ?_, ?_⟩
  · simp only [gustFactor, hin]
    rw [if_pos (by norm_num)]
    norm_num
  · simp only [gustFactor, hin, hout]
    rw [if_neg (by norm_num; linarith), if_pos (by norm_num)]
    norm_num
  · intro tr h1 h2
    simp only [gustFactor]
    rw [if_neg (by linarith), if_neg (by linarith)]

/-- Witness for C16: the gust of the gusty wind system (duration 2) with 1 s remaining. -/
theorem gustFactor_profile_witness :
    gustFactor { (gustyWindSystem Real.pi).gust with timeRemaining := 1 } = 1 :=
  (gustFactor_profile (gustyWindSystem Real.pi).gust rfl rfl
    (by norm_num [gustyWindSystem]) (by norm_num [gustyWindSystem])).2.2 1
    (by norm_num [gustyWindSystem]) (by norm_num [gustyWindSystem])

/-- C17 (as stated, refuted): in the wind system as loaded with the three offset draws
equal to 0 the noise phase and the offsets are all 0, and a frame `updateWind(0, ...)` with
`deltaTime = 0` leaves them so. There every sine of `updateWindVariations` is `sin 0 = 0`,
and the noise variation vector is the zero vector at difficulty 0 and at difficulty 1, so
its magnitude at difficulty 1 is not strictly greater. -/
theorem variation_magnitude_not_strict :
    (initialWindSystem (0 : ℝ) 0 0).variation = ⟨0, 0, 0, 0⟩ ∧
      (∀ (draws : GustDraws ℝ) (gameTime difficulty : ℝ),
        (updateWind Real.sqrt Real.sin Real.cos draws 0 gameTime difficulty
          (initialWindSystem 0 0 0)).variation = ⟨0, 0, 0, 0⟩) ∧
      windVariationVector Real.sin Real.cos (initialWindSystem (0 : ℝ) 0 0).variation 0
        = ⟨0, 0, 0⟩ ∧
      windVariationVector Real.sin Real.cos (initialWindSystem (0 : ℝ) 0 0).variation 1
        = ⟨0, 0, 0⟩ ∧
      ¬ (Vec3.length Real.sqrt
            (windVariationVector Real.sin Real.cos (initialWindSystem (0 : ℝ) 0 0).variation 0) <
          Vec3.length Real.sqrt
            (windVariationVector Real.sin Real.cos (initialWindSystem (0 : ℝ) 0 0).variation
              1)) := by
  have hv : (initialWindSystem (0 : ℝ) 0 0).variation = ⟨0, 0, 0, 0⟩ := by
    simp only [initialWindSystem, zero_mul]
  have h0 : windVariationVector Real.sin Real.cos (initialWindSystem (0 : ℝ) 0 0).variation 0
      = ⟨0, 0, 0⟩ := by
    rw [hv]
    simp only [windVariationVector, zero_mul, zero_add, Real.sin_zero]
  have h1 : windVariationVector Real.sin Real.cos (initialWindSystem (0 : ℝ) 0 0).variation 1
      = ⟨0, 0, 0⟩ := by
    rw [hv]
    simp only [windVariationVector, zero_mul, zero_add, Real.sin_zero]
  refine ⟨hv, fun draws gameTime difficulty => ?_, h0, h1, ?_⟩
  · rw [updateWind_variation, hv]
    simp only [zero_mul, add_zero]
  · rw [h0, h1]
    exact lt_irrefl _

/-- C17 (amended): with `Math.random` an input `u`, an idle wind system starts a gust iff
`u < GUST_PROBABILITY * (1 + difficulty)`, and that bound is 0.005 at difficulty 0 and the
strictly greater 0.01 at difficulty 1. For every noise phase and offsets the magnitude of
the noise variation vector at difficulty 1 is 1.5 times its magnitude at difficulty 0: it
is never smaller, and strictly greater exactly when the variation vector is not zero. -/
theorem gust_start_and_variation_scaling (draws : GustDraws ℝ) (dt difficulty : ℝ)
    (w : WindSystem ℝ) (v : WindVariation ℝ) :
    (w.gust.active = false →
      ((updateWindGusts Real.sqrt draws dt difficulty w).gust.active = true ↔
        draws.start < GUST_PROBABILITY * (1 + difficulty))) ∧
      (GUST_PROBABILITY : ℝ) * (1 + 0) = 0.005 ∧
      (GUST_PROBABILITY : ℝ) * (1 + 1) = 0.01 ∧
      (GUST_PROBABILITY : ℝ) * (1 + 0) < GUST_PROBABILITY * (1 + 1) ∧
      Vec3.length Real.sqrt (windVariationVector Real.sin Real.cos v 1) =
        1.5 * Vec3.length Real.sqrt (windVariationVector Real.sin Real.cos v 0) ∧
      Vec3.length Real.sqrt (windVariationVector Real.sin Real.cos v 0) ≤
        Vec3.length Real.sqrt (windVariationVector Real.sin Real.cos v 1) ∧
      (Vec3.length Real.sqrt (windVariationVector Real.sin Real.cos v 0) <
          Vec3.length Real.sqrt (windVariationVector Real.sin Real.cos v 1) ↔
        windVariationVector Real.sin Real.cos v 0 ≠ ⟨0, 0, 0⟩) := by
  have hnn : 0 ≤ Vec3.length Real.sqrt (windVariationVector Real.sin Real.cos v 0) :=
    Real.sqrt_nonneg _
  have hscale : Vec3.length Real.sqrt (windVariationVector Real.sin Real.cos v 1) =
      1.5 * Vec3.length Real.sqrt (windVariationVector Real.sin Real.cos v 0) := by
    have e1 : windVariationVector Real.sin Real.cos v 1 =
        ⟨(windVariationVector Real.sin Real.cos v 0).x * 1.5,
          (windVariationVector Real.sin Real.cos v 0).y * 1.5,
          (windVariationVector Real.sin Real.cos v 0).z * 1.5⟩ := by
      simp only [windVariationVector]
      norm_num
    rw [e1, length_scale_right _ _ _ 1.5 (by norm_num)]
  refine ⟨fun h => updateWindGusts_idle_active Real.sqrt draws dt difficulty w h,
    by norm_num [GUST_PROBABILITY], by norm_num [GUST_PROBABILITY],
    by norm_num [GUST_PROBABILITY], hscale, by rw [hscale]; linarith, ?_⟩
  rw [hscale, Ne, ← length_eq_zero_iff]
  constructor
  · intro hlt h0
    rw [h0] at hlt
    norm_num at hlt
  · intro hne
    have hpos : 0 < Vec3.length Real.sqrt (windVariationVector Real.sin Real.cos v 0) :=
      lt_of_le_of_ne hnn (Ne.symm hne)
    linarith

/-- Witness for C17 (amended): the freshly loaded wind system is idle, and the draw
`u = 0` starts a gust at difficulty 0. -/
theorem gust_start_and_variation_scaling_witness :
    (updateWindGusts Real.sqrt ⟨0, 0, 0, 0, 0, 0⟩ 1 0 (initialWindSystem 0 0 0)).gust.active
      = true :=
  ((gust_start_and_variation_scaling ⟨0, 0, 0, 0, 0, 0⟩ 1 0 (initialWindSystem 0 0 0)
    (initialWindSystem 0 0 0).variation).1 rfl).mpr (by norm_num [GUST_PROBABILITY])

/-- C18: with every `Math.random` draw an input in `[0, 1)`, for every difficulty in
`[0, 1]` and unit base direction, after `startNewGust` the gust is active,
`1 ≤ duration ≤ 3`, `timeRemaining = duration`,
`2*(1+0.5*difficulty) ≤ strength ≤ 8*(1+0.5*difficulty)`, the perturbed base direction
has positive length (it is not the zero vector) and `gust.direction` is a unit vector. -/
theorem startNewGust_spec (draws : GustDraws ℝ) (difficulty : ℝ) (w : WindSystem ℝ)
    (hd0 : 0 ≤ difficulty) (hd1 : difficulty ≤ 1)
    (hdur0 : 0 ≤ draws.duration) (hdur1 : draws.duration < 1)
    (hstr0 : 0 ≤ draws.strength) (hstr1 : draws.strength < 1)
    (hx0 : 0 ≤ draws.dirX) (hx1 : draws.dirX < 1)
    (hy0 : 0 ≤ draws.dirY) (hy1 : draws.dirY < 1)
    (hz0 : 0 ≤ draws.dirZ) (hz1 : draws.dirZ < 1)
    (hunit : Vec3.length Real.sqrt w.base.direction = 1) :
    (startNewGust Real.sqrt draws difficulty w).gust.active = true ∧
      1 ≤ (startNewGust Real.sqrt draws difficulty w).gust.duration ∧
      (startNewGust Real.sqrt draws difficulty w).gust.duration ≤ 3 ∧
      (startNewGust Real.sqrt draws difficulty w).gust.timeRemaining
        = (startNewGust Real.sqrt draws difficulty w).gust.duration ∧
      2 * (1 + 0.5 * difficulty) ≤ (startNewGust Real.sqrt draws difficulty w).gust.strength ∧
      (startNewGust Real.sqrt draws difficulty w).gust.strength ≤ 8 * (1 + 0.5 * difficulty) ∧
      0 < Vec3.length Real.sqrt
        ⟨w.base.direction.x + (draws.dirX * 2 - 1) * (0.3 + difficulty * 0.2),
          w.base.direction.y + (draws.dirY * 2 - 1) * (0.3 + difficulty * 0.2),
          w.base.direction.z + (draws.dirZ * 2 - 1) * (0.3 + difficulty * 0.2)⟩ ∧
      Vec3.length Real.sqrt (startNewGust Real.sqrt draws difficulty w).gust.direction = 1 := by
  have hpos := perturbed_length_pos w.base.direction
    ((draws.dirX * 2 - 1) * (0.3 + difficulty * 0.2))
    ((draws.dirY * 2 - 1) * (0.3 + difficulty * 0.2))
    ((draws.dirZ * 2 - 1) * (0.3 + difficulty * 0.2)) hunit
    (perturbation_sq_le _ _ hx0 hx1 hd0 hd1) (perturbation_sq_le _ _ hy0 hy1 hd0 hd1)
    (perturbation_sq_le _ _ hz0 hz1 hd0 hd1)
  rw [startNewGust_gust]
  refine ⟨rfl, ?_, ?_, rfl, ?_, ?_, hpos, normalize_length _ hpos⟩
  · show (1 : ℝ) ≤ 1 + draws.duration * (3 - 1)
    nlinarith
  · show 1 + draws.duration * (3 - 1) ≤ (3 : ℝ)
    nlinarith
  · show 2 * (1 + 0.5 * difficulty) ≤ 2 * (1 + difficulty * 0.5)
      + draws.strength * (8 * (1 + difficulty * 0.5) - 2 * (1 + difficulty * 0.5))
    nlinarith [mul_nonneg hstr0 hd0]
  · show 2 * (1 + difficulty * 0.5)
      + draws.strength * (8 * (1 + difficulty * 0.5) - 2 * (1 + difficulty * 0.5))
      ≤ 8 * (1 + 0.5 * difficulty)
    nlinarith [mul_nonneg (sub_nonneg.mpr hstr1.le) hd0]

/-- Witness for C18: the freshly loaded wind system (base direction `(0, 0, -1)`), every
draw equal to `1/2`, difficulty 0. -/
theorem startNewGust_spec_witness :
    (startNewGust Real.sqrt ⟨0, 1 / 2, 1 / 2, 1 / 2, 1 / 2, 1 / 2⟩ 0
        (initialWindSystem 0 0 0)).gust.active = true ∧
      Vec3.length Real.sqrt
        (startNewGust Real.sqrt ⟨0, 1 / 2, 1 / 2, 1 / 2, 1 / 2, 1 / 2⟩ 0
          (initialWindSystem 0 0 0)).gust.direction = 1 := by
  have h := startNewGust_spec ⟨0, 1 / 2, 1 / 2, 1 / 2, 1 / 2, 1 / 2⟩ 0 (initialWindSystem 0 0 0)
    (by norm_num) (by norm_num) (by norm_num) (by norm_num) (by norm_num) (by norm_num)
    (by norm_num) (by norm_num) (by norm_num) (by norm_num) (by norm_num) (by norm_num)
    (by simp [Vec3.length, initialWindSystem])
  exact ⟨h.1, h.2.2.2.2.2.2.2⟩

/-- C19: for every pair of real angles in degrees, the vector
`(sin h cos v, sin v, -cos h cos v)` built by `setBaseWindDirection` already has Euclidean
length 1, the stored base direction is that vector and has length exactly 1; angles
`(0, 0)` give `(0, 0, -1)`, `(90, 0)` gives `(1, 0, 0)` and `(0, 90)` gives `(0, 1, 0)`. -/
theorem setBaseWindDirection_unit (horizontalAngle verticalAngle : ℝ) (w : WindSystem ℝ) :
    Vec3.length Real.sqrt
        ⟨Real.sin (horizontalAngle * Real.pi / 180) * Real.cos (verticalAngle * Real.pi / 180),
          Real.sin (verticalAngle * Real.pi / 180),
          -Real.cos (horizontalAngle * Real.pi / 180)
            * Real.cos (verticalAngle * Real.pi / 180)⟩ = 1 ∧
      (setBaseWindDirection Real.sqrt Real.sin Real.cos Real.pi horizontalAngle verticalAngle
          w).base.direction =
        ⟨Real.sin (horizontalAngle * Real.pi / 180) * Real.cos (verticalAngle * Real.pi / 180),
          Real.sin (verticalAngle * Real.pi / 180),
          -Real.cos (horizontalAngle * Real.pi / 180)
            * Real.cos (verticalAngle * Real.pi / 180)⟩ ∧
      Vec3.length Real.sqrt
        (setBaseWindDirection Real.sqrt Real.sin Real.cos Real.pi horizontalAngle verticalAngle
          w).base.direction = 1 ∧
      (setBaseWindDirection Real.sqrt Real.sin Real.cos Real.pi 0 0 w).base.direction
        = ⟨0, 0, -1⟩ ∧
      (setBaseWindDirection Real.sqrt Real.sin Real.cos Real.pi 90 0 w).base.direction
        = ⟨1, 0, 0⟩ ∧
      (setBaseWindDirection Real.sqrt Real.sin Real.cos Real.pi 0 90 w).base.direction
        = ⟨0, 1, 0⟩ := by
  have hlen : ∀ h v : ℝ, Vec3.length Real.sqrt
      ⟨Real.sin h * Real.cos v, Real.sin v, -Real.cos h * Real.cos v⟩ = 1 := by
    intro h v
    simp only [Vec3.length, prenormalized_sumsq, Real.sqrt_one]
  have h90 : (90 : ℝ) * Real.pi / 180 = Real.pi / 2 := by ring
  refine ⟨hlen _ _, setBaseWindDirection_direction _ _ _, ?_, ?_, ?_, ?_⟩
  · rw [setBaseWindDirection_direction]
    exact hlen _ _
  · rw [setBaseWindDirection_direction]
    simp
  · rw [setBaseWindDirection_direction, h90]
    simp
  · rw [setBaseWindDirection_direction, h90]
    simp

/-! ## Controls -/

/-- C20: while the mouse is down, for every start and current pointer position,
`updateMouseTugForce` sets `tugForce.x = clamp((currentX - mouseStartX) * 0.01, -10, 10)`
and `tugForce.y = clamp((mouseStartY - currentY) * 0.01, -10, 10)` and leaves `tugForce.z`
and the rest of the control state unchanged; when the mouse is not down it changes
nothing. -/
theorem updateMouseTugForce_spec (c : ControlState α) :
    (c.desktop.mouseDown = true →
      (updateMouseTugForce c).tugForce.x =
          min 10 (max (-10) ((c.desktop.currentX - c.desktop.mouseStartX) * 0.01)) ∧
        (updateMouseTugForce c).tugForce.y =
          min 10 (max (-10) ((c.desktop.mouseStartY - c.desktop.currentY) * 0.01)) ∧
        (updateMouseTugForce c).tugForce.z = c.tugForce.z ∧
        (updateMouseTugForce c).desktop = c.desktop ∧
        (updateMouseTugForce c).mobile = c.mobile) ∧
      (c.desktop.mouseDown = false → updateMouseTugForce c = c) := by
  constructor
  · intro h
    simp only [updateMouseTugForce, h, Bool.not_true, Bool.false_eq_true, if_false,
      MAX_TUG_FORCE, MOUSE_SENSITIVITY]
    exact ⟨trivial, trivial, trivial, trivial, trivial⟩
  · intro h
    simp only [updateMouseTugForce, h, Bool.not_false, if_true]

/-- Witness for C20: a drag from `(100, 200)` to `(400, 50)` with the mouse down gives the
tug force `(3, 1.5, 0)`. -/
theorem updateMouseTugForce_spec_witness :
    (updateMouseTugForce (draggingControlState : ControlState ℚ)).tugForce = ⟨3, 3 / 2, 0⟩ := by
  obtain ⟨hx, hy, hz, -, -⟩ :=
    (updateMouseTugForce_spec (draggingControlState : ControlState ℚ)).1 rfl
  have e : ∀ v : Vec3 ℚ, v = ⟨v.x, v.y, v.z⟩ := fun v => rfl
  rw [e (updateMouseTugForce _).tugForce, hx, hy, hz]
  norm_num [draggingControlState]

/-- C21 (as stated, refuted): a mouse drag from `(0, 2000)` to `(2000, 0)` leaves the tug
force `(10, 10, 0)`, whose Euclidean magnitude exceeds `MAX_TUG_FORCE = 10`. -/
theorem mouse_tug_magnitude_exceeds_max :
    getTugForce (updateMouseTugForce (farDragControlState : ControlState ℝ)) = ⟨10, 10, 0⟩ ∧
      MAX_TUG_FORCE <
        Vec3.length Real.sqrt
          (getTugForce (updateMouseTugForce (farDragControlState : ControlState ℝ))) := by
  have h : getTugForce (updateMouseTugForce (farDragControlState : ControlState ℝ))
      = ⟨10, 10, 0⟩ := by
    simp only [getTugForce, updateMouseTugForce, farDragControlState, MAX_TUG_FORCE,
      MOUSE_SENSITIVITY]
    norm_num
  refine ⟨h, ?_⟩
  rw [h]
  simp only [Vec3.length, MAX_TUG_FORCE]
  rw [Real.lt_sqrt (by norm_num)]
  norm_num

/-- C21 (amended): with `tugForce.z = 0`, after `updateKeyboardTugForce` (arbitrary key
flags) and after a joystick move with non-negative raw force (normalized force in
`[0, 1]`, any angle) the Euclidean magnitude of the vector returned by `getTugForce` is at
most `MAX_TUG_FORCE = 10`; after `updateMouseTugForce` with the mouse down each of the x
and y components lies in `[-10, 10]` and the magnitude is at most `√200 = 10·√2`. -/
theorem tug_force_bounds (c : ControlState ℝ) (hz : c.tugForce.z = 0) :
    Vec3.length Real.sqrt (getTugForce (updateKeyboardTugForce c)) ≤ MAX_TUG_FORCE ∧
      (∀ angleRadian dataForce : ℝ, 0 ≤ dataForce →
        Vec3.length Real.sqrt
          (getTugForce (joystickMove Real.sin Real.cos angleRadian dataForce c))
          ≤ MAX_TUG_FORCE) ∧
      (c.desktop.mouseDown = true →
        |(getTugForce (updateMouseTugForce c)).x| ≤ MAX_TUG_FORCE ∧
          |(getTugForce (updateMouseTugForce c)).y| ≤ MAX_TUG_FORCE ∧
          Vec3.length Real.sqrt (getTugForce (updateMouseTugForce c)) ≤ Real.sqrt 200) := by
  refine ⟨?_, ?_, ?_⟩
  · simp only [getTugForce, updateKeyboardTugForce, Vec3.length, hz, MAX_TUG_FORCE,
      KEYBOARD_FORCE_INCREMENT]
    apply sqrt_le_ten
    rcases c.desktop.keys with ⟨_ | _, _ | _, _ | _, _ | _⟩ <;> norm_num
  · intro θ df hdf
    simp only [getTugForce, joystickMove, updateJoystickTugForce, Vec3.length, hz,
      MAX_TUG_FORCE]
    apply sqrt_le_ten
    have hf0 : (0 : ℝ) ≤ min 1 (df / 50) := le_min (by norm_num) (by positivity)
    have hf1 : min 1 (df / 50) ≤ (1 : ℝ) := min_le_left _ _
    have hsc := Real.sin_sq_add_cos_sq θ
    have hff : min 1 (df / 50) * min 1 (df / 50) ≤ 1 := by nlinarith
    have e : Real.cos θ * min 1 (df / 50) * 10 * (Real.cos θ * min 1 (df / 50) * 10)
        + -(Real.sin θ * min 1 (df / 50)) * 10 * (-(Real.sin θ * min 1 (df / 50)) * 10)
        + 0 * 0
        = 100 * (min 1 (df / 50) * min 1 (df / 50))
          * (Real.sin θ ^ 2 + Real.cos θ ^ 2) := by ring
    rw [e, hsc]
    linarith
  · intro hdown
    have hx : (getTugForce (updateMouseTugForce c)).x =
        min MAX_TUG_FORCE (max (-MAX_TUG_FORCE)
          ((c.desktop.currentX - c.desktop.mouseStartX) * MOUSE_SENSITIVITY)) := by
      simp [getTugForce, updateMouseTugForce, hdown]
    have hy : (getTugForce (updateMouseTugForce c)).y =
        min MAX_TUG_FORCE (max (-MAX_TUG_FORCE)
          ((c.desktop.mouseStartY - c.desktop.currentY) * MOUSE_SENSITIVITY)) := by
      simp [getTugForce, updateMouseTugForce, hdown]
    have hzz : (getTugForce (updateMouseTugForce c)).z = 0 := by
      simp [getTugForce, updateMouseTugForce, hdown, hz]
    have hax := clamp_abs_le ((c.desktop.currentX - c.desktop.mouseStartX) * MOUSE_SENSITIVITY)
    have hay := clamp_abs_le ((c.desktop.mouseStartY - c.desktop.currentY) * MOUSE_SENSITIVITY)
    rw [← hx] at hax
    rw [← hy] at hay
    refine ⟨by simpa only [MAX_TUG_FORCE] using hax, by simpa only [MAX_TUG_FORCE] using hay, ?_⟩
    simp only [Vec3.length, hzz]
    apply Real.sqrt_le_sqrt
    have h1 := abs_le.mp hax
    have h2 := abs_le.mp hay
    nlinarith [h1.1, h1.2, h2.1, h2.2]

/-- Witness for C21 (amended): the control state in the middle of the drag from
`(100, 200)` to `(400, 50)`. -/
theorem tug_force_bounds_witness :
    Vec3.length Real.sqrt
        (getTugForce (updateKeyboardTugForce (draggingControlState : ControlState ℝ)))
      ≤ MAX_TUG_FORCE :=
  (tug_force_bounds (draggingControlState : ControlState ℝ) rfl).1

/-- C22: for every tug force whose x and y components lie in `[-10, 10]`, a
`resetTugForce` call sets a component to 0 if its absolute value is below 0.1 and
otherwise multiplies it by 0.9, never increasing its magnitude or flipping its sign; after
45 or more consecutive calls both x and y are exactly 0. -/
theorem resetTugForce_decay (c : ControlState α)
    (hx : -10 ≤ c.tugForce.x ∧ c.tugForce.x ≤ 10)
    (hy : -10 ≤ c.tugForce.y ∧ c.tugForce.y ≤ 10) :
    (resetTugForce c).tugForce.x
        = (if |c.tugForce.x| < 0.1 then 0 else c.tugForce.x * 0.9) ∧
      (resetTugForce c).tugForce.y
        = (if |c.tugForce.y| < 0.1 then 0 else c.tugForce.y * 0.9) ∧
      |(resetTugForce c).tugForce.x| ≤ |c.tugForce.x| ∧
      |(resetTugForce c).tugForce.y| ≤ |c.tugForce.y| ∧
      (0 ≤ c.tugForce.x → 0 ≤ (resetTugForce c).tugForce.x) ∧
      (c.tugForce.x ≤ 0 → (resetTugForce c).tugForce.x ≤ 0) ∧
      (0 ≤ c.tugForce.y → 0 ≤ (resetTugForce c).tugForce.y) ∧
      (c.tugForce.y ≤ 0 → (resetTugForce c).tugForce.y ≤ 0) ∧
      (∀ n : Nat, 45 ≤ n →
        (resetTugForce^[n] c).tugForce.x = 0 ∧ (resetTugForce^[n] c).tugForce.y = 0) := by
  obtain ⟨ex, ey⟩ := resetTugForce_components c
  rw [ex, ey]
  refine ⟨decayStep_eq _, decayStep_eq _, decayStep_abs_le _, decayStep_abs_le _,
    (decayStep_sign _).1, (decayStep_sign _).2, (decayStep_sign _).1, (decayStep_sign _).2,
    fun n hn => ?_⟩
  obtain ⟨ix, iy⟩ := resetTugForce_iterate n c
  rw [ix, iy]
  exact ⟨decayStep_iterate_zero _ (abs_le.mpr hx) n hn,
    decayStep_iterate_zero _ (abs_le.mpr hy) n hn⟩

/-- Witness for C22: the tug force `(10, 10, 0)` left by the long mouse drag is exactly
zero in x and y after 45 `resetTugForce` calls. -/
theorem resetTugForce_decay_witness :
    (resetTugForce^[45] (updateMouseTugForce (farDragControlState : ControlState ℚ))).tugForce.x
        = 0 ∧
      (resetTugForce^[45]
        (updateMouseTugForce (farDragControlState : ControlState ℚ))).tugForce.y = 0 := by
  have hx : (updateMouseTugForce (farDragControlState : ControlState ℚ)).tugForce.x = 10 := by
    simp only [updateMouseTugForce, farDragControlState, MAX_TUG_FORCE, MOUSE_SENSITIVITY]
    norm_num
  have hy : (updateMouseTugForce (farDragControlState : ControlState ℚ)).tugForce.y = 10 := by
    simp only [updateMouseTugForce, farDragControlState, MAX_TUG_FORCE, MOUSE_SENSITIVITY]
    norm_num
  exact (resetTugForce_decay (updateMouseTugForce (farDragControlState : ControlState ℚ))
    (by rw [hx]; norm_num) (by rw [hy]; norm_num)).2.2.2.2.2.2.2.2 45 (le_refl _)

/-! ## Wind force on the kite -/

/-- C23: for every kite orientation and wind vector, `applyWindForce` applies force to the
kite body iff `alignment = (orientation applied to (0,0,1)) · wind` is negative (then both
lift and drag are applied) and applies none when `alignment ≥ 0`; wind `(0,0,-10)` with
the identity orientation has alignment -10 and gets lift and drag, with the kite turned
180 degrees about y the normal is `(0,0,-1)`, the alignment is +10 and no force is
applied. -/
theorem applyWindForce_iff_alignment_neg (quaternion : Quaternion ℝ) (windVector : Vec3 ℝ) :
    (applyWindForce Real.sqrt quaternion windVector ≠ [] ↔
        Vec3.dot (Vec3.applyQuaternion ⟨0, 0, 1⟩ quaternion) windVector < 0) ∧
      (Vec3.dot (Vec3.applyQuaternion ⟨0, 0, 1⟩ quaternion) windVector < 0 →
        (applyWindForce Real.sqrt quaternion windVector).length = 2) ∧
      (0 ≤ Vec3.dot (Vec3.applyQuaternion ⟨0, 0, 1⟩ quaternion) windVector →
        applyWindForce Real.sqrt quaternion windVector = []) ∧
      Vec3.dot (Vec3.applyQuaternion ⟨0, 0, 1⟩ (identityQuaternion : Quaternion ℝ))
        ⟨0, 0, -10⟩ = -10 ∧
      applyWindForce Real.sqrt identityQuaternion ⟨0, 0, -10⟩
        = [⟨-200, 0, 0⟩, ⟨0, 0, -300⟩] ∧
      Vec3.applyQuaternion ⟨0, 0, 1⟩ (halfTurnAboutY : Quaternion ℝ) = ⟨0, 0, -1⟩ ∧
      Vec3.dot (Vec3.applyQuaternion ⟨0, 0, 1⟩ (halfTurnAboutY : Quaternion ℝ))
        ⟨0, 0, -10⟩ = 10 ∧
      applyWindForce Real.sqrt halfTurnAboutY ⟨0, 0, -10⟩ = [] := by
  have hhalf : Vec3.applyQuaternion ⟨0, 0, 1⟩ (halfTurnAboutY : Quaternion ℝ)
      = ⟨0, 0, -1⟩ := by
    simp only [Vec3.applyQuaternion, halfTurnAboutY]
    norm_num
  refine ⟨?_, ?_, ?_, ?_, applyWindForce_identity_example, hhalf, ?_, ?_⟩
  · by_cases h : Vec3.dot (Vec3.applyQuaternion ⟨0, 0, 1⟩ quaternion) windVector < 0
    · simp only [applyWindForce, if_pos h]
      exact ⟨fun _ => h, fun _ => List.cons_ne_nil _ _⟩
    · simp only [applyWindForce, if_neg h]
      exact ⟨fun hne => absurd rfl hne, fun hlt => absurd hlt h⟩
  · intro h
    simp only [applyWindForce, if_pos h, List.length_cons, List.length_nil]
  · intro h
    simp only [applyWindForce, if_neg (not_lt.mpr h)]
  · simp only [Vec3.applyQuaternion, Vec3.dot, identityQuaternion]
    norm_num
  · rw [hhalf]
    simp only [Vec3.dot]
    norm_num
  · have h10 : ¬ (Vec3.dot (Vec3.applyQuaternion ⟨0, 0, 1⟩ (halfTurnAboutY : Quaternion ℝ))
        ⟨0, 0, -10⟩ < 0) := by
      rw [hhalf]
      simp only [Vec3.dot]
      norm_num
    simp only [applyWindForce, if_neg h10]

/-- Witness for C23: wind `(0, 0, -10)` on the identity orientation has negative
alignment, so two forces are applied. -/
theorem applyWindForce_iff_alignment_neg_witness :
    (applyWindForce Real.sqrt (identityQuaternion : Quaternion ℝ) ⟨0, 0, -10⟩).length = 2 :=
  (applyWindForce_iff_alignment_neg identityQuaternion ⟨0, 0, -10⟩).2.1
    (by simp only [Vec3.applyQuaternion, Vec3.dot, identityQuaternion]; norm_num)

/-- C24 (the code at the failing input): with the identity orientation and wind
`(0, 0, -10)` (alignment -10) the drag force handed to the kite is `(0, 0, -300)`, of
magnitude 300, while `|wind| * |alignment| * 0.3` is 30: the wind vector is scaled without
being normalized. -/
theorem drag_force_scaled_by_wind_length :
    (applyWindForce Real.sqrt (identityQuaternion : Quaternion ℝ) ⟨0, 0, -10⟩)[1]?
        = some ⟨0, 0, -300⟩ ∧
      Vec3.length Real.sqrt (⟨0, 0, -300⟩ : Vec3 ℝ) = 300 ∧
      Vec3.length Real.sqrt (⟨0, 0, -10⟩ : Vec3 ℝ)
        * |Vec3.dot (Vec3.applyQuaternion ⟨0, 0, 1⟩ (identityQuaternion : Quaternion ℝ))
            ⟨0, 0, -10⟩| * 0.3 = 30 := by
  refine ⟨by rw [applyWindForce_identity_example]; rfl, ?_, ?_⟩
  · simp only [Vec3.length]
    rw [show ((0 : ℝ) * 0 + 0 * 0 + -300 * -300) = 90000 by norm_num, sqrt_ninety_thousand]
  · simp only [Vec3.length, Vec3.applyQuaternion, Vec3.dot, identityQuaternion]
    rw [show ((0 : ℝ) * 0 + 0 * 0 + -10 * -10) = 100 by norm_num, sqrt_hundred]
    norm_num

/-- C25 (the code at the failing input): with the identity orientation and wind
`(0, 0, -10)` the lift force handed to the kite is `(-200, 0, 0)`; it has the claimed
magnitude 200 and is perpendicular to the wind, but its scalar product with the kite's
horizontal edge `(1, 0, 0)` is -200, so it is not perpendicular to the edge. -/
theorem lift_force_along_edge :
    (applyWindForce Real.sqrt (identityQuaternion : Quaternion ℝ) ⟨0, 0, -10⟩)[0]?
        = some ⟨-200, 0, 0⟩ ∧
      Vec3.applyQuaternion ⟨1, 0, 0⟩ (identityQuaternion : Quaternion ℝ) = ⟨1, 0, 0⟩ ∧
      Vec3.dot (⟨-200, 0, 0⟩ : Vec3 ℝ) ⟨0, 0, -10⟩ = 0 ∧
      Vec3.dot (⟨-200, 0, 0⟩ : Vec3 ℝ)
        (Vec3.applyQuaternion ⟨1, 0, 0⟩ (identityQuaternion : Quaternion ℝ)) = -200 := by
  have he : Vec3.applyQuaternion ⟨1, 0, 0⟩ (identityQuaternion : Quaternion ℝ)
      = ⟨1, 0, 0⟩ := by
    simp only [Vec3.applyQuaternion, identityQuaternion]
    norm_num
  refine ⟨by rw [applyWindForce_identity_example]; rfl, he, ?_, ?_⟩
  · simp only [Vec3.dot]; norm_num
  · rw [he]; simp only [Vec3.dot]; norm_num

/-- C26: for every unit-quaternion orientation, `applyWindForce` applies no force when
the wind vector is zero and none when the wind is a multiple of the kite's horizontal
edge; whenever the alignment is negative the cross product `wind × edge` is non-zero and
so is the second cross product `wind × planeNormal`, so both normalizations in the lift
computation act on non-zero vectors. -/
theorem applyWindForce_nondegenerate (quaternion : Quaternion ℝ) (windVector : Vec3 ℝ)
    (hunit : quaternion.x * quaternion.x + quaternion.y * quaternion.y
      + quaternion.z * quaternion.z + quaternion.w * quaternion.w = 1) :
    applyWindForce Real.sqrt quaternion ⟨0, 0, 0⟩ = [] ∧
      (∀ k : ℝ, applyWindForce Real.sqrt quaternion
        (Vec3.scale (Vec3.applyQuaternion ⟨1, 0, 0⟩ quaternion) k) = []) ∧
      (Vec3.dot (Vec3.applyQuaternion ⟨0, 0, 1⟩ quaternion) windVector < 0 →
        0 < Vec3.length Real.sqrt
            (Vec3.cross windVector (Vec3.applyQuaternion ⟨1, 0, 0⟩ quaternion)) ∧
          0 < Vec3.length Real.sqrt
            (Vec3.cross windVector
              (Vec3.normalize Real.sqrt
                (Vec3.cross windVector (Vec3.applyQuaternion ⟨1, 0, 0⟩ quaternion))))) := by
  refine ⟨?_, ?_, ?_⟩
  · have h0 : ¬ (Vec3.dot (Vec3.applyQuaternion ⟨0, 0, 1⟩ quaternion) ⟨0, 0, 0⟩ < 0) := by
      simp only [Vec3.dot]
      norm_num
    simp only [applyWindForce, if_neg h0]
  · intro k
    have hk : Vec3.dot (Vec3.applyQuaternion ⟨0, 0, 1⟩ quaternion)
        (Vec3.scale (Vec3.applyQuaternion ⟨1, 0, 0⟩ quaternion) k)
        = k * Vec3.dot (Vec3.applyQuaternion ⟨0, 0, 1⟩ quaternion)
            (Vec3.applyQuaternion ⟨1, 0, 0⟩ quaternion) := by
      simp only [Vec3.dot, Vec3.scale]
      ring
    have h0 : ¬ (Vec3.dot (Vec3.applyQuaternion ⟨0, 0, 1⟩ quaternion)
        (Vec3.scale (Vec3.applyQuaternion ⟨1, 0, 0⟩ quaternion) k) < 0) := by
      rw [hk, normal_dot_edge]
      norm_num
    simp only [applyWindForce, if_neg h0]
  · intro hdot
    have h1 := cross_length_pos_of_dot_neg _ _ windVector (normal_dot_edge quaternion)
      (edge_dot_edge quaternion hunit) hdot
    refine ⟨h1, second_cross_length_pos windVector _ ?_ h1 (wind_dot_cross _ _)⟩
    by_contra hw
    have hz : windVector.x * windVector.x + windVector.y * windVector.y
        + windVector.z * windVector.z = 0 :=
      le_antisymm (not_lt.mp hw)
        (by nlinarith [mul_self_nonneg windVector.x, mul_self_nonneg windVector.y,
          mul_self_nonneg windVector.z])
    obtain ⟨hx, hy, hzz⟩ := (sumsq_eq_zero_iff _ _ _).mp hz
    simp only [Vec3.dot, hx, hy, hzz] at hdot
    norm_num at hdot

/-- Witness for C26: the identity orientation with wind `(0, 0, -10)`. -/
theorem applyWindForce_nondegenerate_witness :
    0 < Vec3.length Real.sqrt
      (Vec3.cross (⟨0, 0, -10⟩ : Vec3 ℝ)
        (Vec3.applyQuaternion ⟨1, 0, 0⟩ (identityQuaternion : Quaternion ℝ))) :=
  ((applyWindForce_nondegenerate identityQuaternion ⟨0, 0, -10⟩
    (by simp only [identityQuaternion]; norm_num)).2.2
    (by simp only [Vec3.applyQuaternion, Vec3.dot, identityQuaternion]; norm_num)).1

/-! ## String shortening, gust continuity, string collisions, themes -/

/-- C27 (as stated, refuted): with the fresh string anchored at the origin and the kite at
distance 20 the tick stores tension 50, above the threshold 20, yet `string.length` is 15
after the tick as before, although 15 is above `MIN_STRING_LENGTH`. -/
theorem updateString_keeps_length :
    (updateString Real.sqrt (createString ⟨0, 0, 0⟩) ⟨12, 16, 0⟩ (1 / 60)
        initialHealth).string.tension = 50 ∧
      (STRING_TENSION_THRESHOLD : ℝ) < 50 ∧
      (updateString Real.sqrt (createString ⟨0, 0, 0⟩) ⟨12, 16, 0⟩ (1 / 60)
        initialHealth).string.length = (createString (⟨0, 0, 0⟩ : Vec3 ℝ)).length ∧
      (createString (⟨0, 0, 0⟩ : Vec3 ℝ)).length = 15 ∧
      (MIN_STRING_LENGTH : ℝ) < (createString (⟨0, 0, 0⟩ : Vec3 ℝ)).length := by
  refine ⟨?_, by norm_num [STRING_TENSION_THRESHOLD],
    (updateString_frame _ _ _ _ _).1, by norm_num [createString, BASE_STRING_LENGTH],
    by norm_num [createString, BASE_STRING_LENGTH, MIN_STRING_LENGTH]⟩
  rw [updateString_tension, tension_scenario]

/-- C27 (amended): on every string update tick in which the tension exceeds
`STRING_TENSION_THRESHOLD`, the step applies damage `(tension - 20) * 0.1`, proportional to
the overshoot, to the string health; no tick changes `string.length` (or the anchor or
the tug force). -/
theorem updateString_damage_without_shortening (sqrt : α → α) (string : StringState α)
    (kitePos : Vec3 α) (dt : α) (health : HealthState α) :
    (updateString sqrt string kitePos dt health).string.length = string.length ∧
      (updateString sqrt string kitePos dt health).string.anchorPos = string.anchorPos ∧
      (updateString sqrt string kitePos dt health).string.tugForce = string.tugForce ∧
      (calculateStringTension sqrt string kitePos > STRING_TENSION_THRESHOLD →
        (updateString sqrt string kitePos dt health).health =
          (damageString
            ((calculateStringTension sqrt string kitePos - STRING_TENSION_THRESHOLD) * 0.1)
            health).1) := by
  obtain ⟨h1, h2, h3⟩ := updateString_frame sqrt string kitePos dt health
  refine ⟨h1, h2, h3, fun hgt => ?_⟩
  rw [updateString_health, if_pos hgt]

/-- Witness for C27 (amended): the tick with the kite at distance 20 leaves the health
state that `damageString(3)` produces, that is health 97. -/
theorem updateString_damage_without_shortening_witness :
    (updateString Real.sqrt (createString ⟨0, 0, 0⟩) ⟨12, 16, 0⟩ (1 / 60)
        initialHealth).health.currentHealth = 97 := by
  rw [(updateString_damage_without_shortening Real.sqrt (createString ⟨0, 0, 0⟩) ⟨12, 16, 0⟩
    (1 / 60) initialHealth).2.2.2
    (by rw [tension_scenario]; norm_num [STRING_TENSION_THRESHOLD]),
    tension_scenario, damageString_currentHealth]
  norm_num [initialHealth, MAX_HEALTH, STRING_TENSION_THRESHOLD]

/-- C28 (the code at the failing input): for a gust of duration 1 the gust factor is
0.625 at `timeRemaining = 0.5` but `2 * (1 - timeRemaining)`, close to 1, just above 0.5;
as a function of `timeRemaining` on `[0, duration]` it is not continuous. -/
theorem gustFactor_jump :
    gustFactor { (shortGust : Gust ℝ) with timeRemaining := 0.5 } = 0.625 ∧
      (∀ tr : ℝ, 0.5 < tr →
        gustFactor { (shortGust : Gust ℝ) with timeRemaining := tr } = 2 * (1 - tr)) ∧
      ¬ ContinuousOn
        (fun tr : ℝ => gustFactor { (shortGust : Gust ℝ) with timeRemaining := tr })
        (Set.Icc 0 (shortGust : Gust ℝ).duration) := by
  refine ⟨shortGust_factor_at_half, shortGust_factor_above_half, ?_⟩
  intro hcont
  have hmem : (0.5 : ℝ) ∈ Set.Icc (0 : ℝ) (shortGust : Gust ℝ).duration := by
    simp only [shortGust, Set.mem_Icc]
    norm_num
  have hat := hcont 0.5 hmem
  rw [Metric.continuousWithinAt_iff] at hat
  obtain ⟨δ, hδ, hball⟩ := hat 0.1 (by norm_num)
  have hx1 : (0.5 : ℝ) < 0.5 + min (δ / 2) 0.1 := by
    have : 0 < min (δ / 2) 0.1 := lt_min (by linarith) (by norm_num)
    linarith
  have hxmem : 0.5 + min (δ / 2) 0.1 ∈ Set.Icc (0 : ℝ) (shortGust : Gust ℝ).duration := by
    have : min (δ / 2) 0.1 ≤ (0.1 : ℝ) := min_le_right _ _
    simp only [shortGust, Set.mem_Icc]
    constructor <;> linarith
  have hdist : dist (0.5 + min (δ / 2) 0.1) (0.5 : ℝ) < δ := by
    rw [Real.dist_eq]
    have h1 : 0 < min (δ / 2) 0.1 := lt_min (by linarith) (by norm_num)
    have h2 : min (δ / 2) 0.1 ≤ δ / 2 := min_le_left _ _
    rw [show (0.5 : ℝ) + min (δ / 2) 0.1 - 0.5 = min (δ / 2) 0.1 by ring, abs_of_pos h1]
    linarith
  have h := hball hxmem hdist
  simp only [] at h
  rw [shortGust_factor_above_half _ hx1, shortGust_factor_at_half, Real.dist_eq] at h
  have h3 : min (δ / 2) 0.1 ≤ (0.1 : ℝ) := min_le_right _ _
  rw [abs_lt] at h
  linarith [h.1, h.2]

/-- C29: for every segment from `start` to `end` (the degenerate case `start = end`
included), every sphere centre and every radius `> 0`, `lineIntersectsSphere` returns true
iff some point `start + t * (end - start)`, `0 ≤ t ≤ 1`, of the closed segment lies at
distance strictly less than the radius from the centre. -/
theorem lineIntersectsSphere_iff (start finish center : Vec3 ℝ) (radius : ℝ)
    (hr : 0 < radius) :
    lineIntersectsSphere Real.sqrt start finish center radius = true ↔
      ∃ t : ℝ, 0 ≤ t ∧ t ≤ 1 ∧
        Vector3.distanceTo Real.sqrt
          (Vector3.add start (Vector3.multiplyScalar (Vector3.sub finish start) t)) center
          < radius := by
  obtain ⟨Sd, hSd⟩ : ∃ Sd : ℝ, Sd = (finish.x - start.x) * (finish.x - start.x)
      + (finish.y - start.y) * (finish.y - start.y)
      + (finish.z - start.z) * (finish.z - start.z) := ⟨_, rfl⟩
  obtain ⟨sd, hsd⟩ : ∃ sd : ℝ, sd = (center.x - start.x) * (finish.x - start.x)
      + (center.y - start.y) * (finish.y - start.y)
      + (center.z - start.z) * (finish.z - start.z) := ⟨_, rfl⟩
  obtain ⟨ss, hss⟩ : ∃ ss : ℝ, ss = (center.x - start.x) * (center.x - start.x)
      + (center.y - start.y) * (center.y - start.y)
      + (center.z - start.z) * (center.z - start.z) := ⟨_, rfl⟩
  have hQ : ∀ t : ℝ, Vector3.distanceTo Real.sqrt
      (Vector3.add start (Vector3.multiplyScalar (Vector3.sub finish start) t)) center
        < radius ↔
      Sd * t ^ 2 - 2 * sd * t + ss < radius ^ 2 :=
    fun t => segment_point_dist start finish center radius t hr Sd sd ss hSd hsd hss
  have e0 : Vector3.add start (Vector3.multiplyScalar (Vector3.sub finish start) 0)
      = start := by
    simp [Vector3.add, Vector3.multiplyScalar]
  have e1 : Vector3.add start (Vector3.multiplyScalar (Vector3.sub finish start) 1)
      = finish := by
    simp [Vector3.add, Vector3.multiplyScalar, Vector3.sub]
  have hP0 := hQ 0
  have hP1 := hQ 1
  rw [e0] at hP0
  rw [e1] at hP1
  have hSd0 : 0 ≤ Sd := by
    rw [hSd]
    nlinarith [mul_self_nonneg (finish.x - start.x), mul_self_nonneg (finish.y - start.y),
      mul_self_nonneg (finish.z - start.z)]
  rw [lineIntersectsSphere_unfold start finish center radius Sd sd hSd hsd]
  simp only [hQ]
  by_cases hS : Sd = 0
  · have hsd0 : sd = 0 := by
      obtain ⟨h1, h2, h3⟩ := (sumsq_eq_zero_iff _ _ _).mp (hSd ▸ hS)
      rw [hsd, h1, h2, h3]
      ring
    rw [hS, Real.sqrt_zero, if_pos rfl, hsd0]
    have hc : ¬ ((0 : ℝ) * (1 / 1) < 0 ∨ (0 : ℝ) * (1 / 1) > 0) := by norm_num
    rw [if_neg hc, decide_eq_true_iff]
    constructor
    · intro h
      exact ⟨0, le_refl _, by norm_num, by nlinarith [h]⟩
    · rintro ⟨t, _, _, h⟩
      nlinarith [h]
  · have hSpos : 0 < Sd := lt_of_le_of_ne hSd0 (Ne.symm hS)
    have hLpos : 0 < Real.sqrt Sd := Real.sqrt_pos.mpr hSpos
    have hLL : Real.sqrt Sd * Real.sqrt Sd = Sd := Real.mul_self_sqrt hSd0
    rw [if_neg (ne_of_gt hLpos)]
    obtain ⟨L, hL⟩ : ∃ L : ℝ, L = Real.sqrt Sd := ⟨_, rfl⟩
    rw [← hL] at hLpos hLL ⊢
    have eL : sd * (1 / L) * L = sd := by field_simp
    by_cases hcond : sd * (1 / L) < 0 ∨ sd * (1 / L) > L
    · rw [if_pos hcond, Bool.or_eq_true, decide_eq_true_iff, decide_eq_true_iff, hP0, hP1]
      constructor
      · rintro (h | h)
        · exact ⟨0, le_refl _, by norm_num, h⟩
        · exact ⟨1, by norm_num, le_refl _, h⟩
      · rintro ⟨t, ht0, ht1, h⟩
        rcases hcond with hneg | hbig
        · left
          have hsdneg : sd < 0 := by
            have := mul_neg_of_neg_of_pos hneg hLpos
            linarith
          exact lt_of_le_of_lt (quadratic_outside_low Sd sd ss t hSd0 hsdneg ht0) h
        · right
          have hsdbig : Sd < sd := by
            have := mul_lt_mul_of_pos_right hbig hLpos
            linarith
          exact lt_of_le_of_lt (quadratic_outside_high Sd sd ss t hSd0 hsdbig ht1) h
    · rw [if_neg hcond, decide_eq_true_iff]
      push_neg at hcond
      obtain ⟨hp0, hpL⟩ := hcond
      have ht0 : 1 / L * (sd * (1 / L)) = sd / Sd := by
        rw [← hLL]; field_simp
      rw [ht0]
      constructor
      · intro h
        refine ⟨sd / Sd, ?_, ?_, h⟩
        · have : 0 ≤ sd := by
            have := mul_nonneg hp0 (le_of_lt hLpos)
            linarith
          positivity
        · rw [div_le_one hSpos]
          have := mul_le_mul_of_nonneg_right hpL (le_of_lt hLpos)
          linarith
      · rintro ⟨t, _, _, h⟩
        exact lt_of_le_of_lt (quadratic_min Sd sd ss t hSpos) h

/-- Witness for C29: the unit sphere at `(5, 1/2, 0)` meets the segment from the origin
to `(10, 0, 0)` (at its midpoint the distance is `1/2`). -/
theorem lineIntersectsSphere_iff_witness :
    lineIntersectsSphere Real.sqrt ⟨0, 0, 0⟩ ⟨10, 0, 0⟩ ⟨5, 1 / 2, 0⟩ 1 = true :=
  (lineIntersectsSphere_iff ⟨0, 0, 0⟩ ⟨10, 0, 0⟩ ⟨5, 1 / 2, 0⟩ 1 (by norm_num)).mpr
    ⟨1 / 2, by norm_num, by norm_num, by
      simp only [Vector3.distanceTo, Vector3.add, Vector3.multiplyScalar, Vector3.sub]
      rw [Real.sqrt_lt' (by norm_num)]
      norm_num⟩

/-- C30 (the code at the failing input): with `currentTheme = 'cities'` and
`gameTime = 121`, `updateDreamscape` sets the theme back to `'forests'` and calls
`transitionTheme('forests', 2.0)`; over the game times 121, 122, 123 the theme goes
forests, cities, forests with three `transitionTheme` calls. For every `gameTime > 120` a
call made in theme `'cities'` leaves `'forests'`. -/
theorem updateDreamscape_leaves_cities :
    (updateDreamscape (121 : ℚ) (1 / 60) ⟨Theme.cities, []⟩).currentTheme = Theme.forests ∧
      (updateDreamscape (121 : ℚ) (1 / 60) ⟨Theme.cities, []⟩).transitionCalls
        = [(Theme.forests, 2.0)] ∧
      (runDreamscape [(121 : ℚ), 122] ⟨Theme.cities, []⟩).currentTheme = Theme.cities ∧
      (runDreamscape [(121 : ℚ), 122, 123] ⟨Theme.cities, []⟩).currentTheme
        = Theme.forests ∧
      (runDreamscape [(121 : ℚ), 122, 123] ⟨Theme.cities, []⟩).transitionCalls.length = 3 ∧
      (∀ (gameTime dt : ℚ) (s : ThemeState ℚ), 120 < gameTime →
        s.currentTheme = Theme.cities →
        (updateDreamscape gameTime dt s).currentTheme = Theme.forests ∧
          (updateDreamscape gameTime dt s).transitionCalls
            = (Theme.forests, 2.0) :: s.transitionCalls) := by
  have hgen : ∀ (gameTime dt : ℚ) (s : ThemeState ℚ), 120 < gameTime →
      s.currentTheme = Theme.cities →
      updateDreamscape gameTime dt s =
        ⟨Theme.forests, (Theme.forests, 2.0) :: s.transitionCalls⟩ := by
    intro gameTime dt s hg hs
    have h60 : gameTime > 60 := by linarith
    simp only [updateDreamscape, hs, ne_eq, not_true_eq_false, and_false, if_false]
    rw [if_pos ⟨h60, by decide⟩]
  have hback : ∀ (gameTime dt : ℚ) (s : ThemeState ℚ), 120 < gameTime →
      s.currentTheme = Theme.forests →
      updateDreamscape gameTime dt s =
        ⟨Theme.cities, (Theme.cities, 2.0) :: s.transitionCalls⟩ := by
    intro gameTime dt s hg hs
    simp only [updateDreamscape, hs]
    rw [if_pos ⟨hg, by decide⟩]
  have h1 := hgen 121 (1 / 60) ⟨Theme.cities, []⟩ (by norm_num) rfl
  have h2 := hback 122 (1 / 60) ⟨Theme.forests, [(Theme.forests, 2.0)]⟩ (by norm_num) rfl
  have h3 := hgen 123 (1 / 60)
    ⟨Theme.cities, [(Theme.cities, 2.0), (Theme.forests, 2.0)]⟩ (by norm_num) rfl
  refine ⟨by rw [h1], by rw [h1], ?_, ?_, ?_, fun gameTime dt s hg hs => ?_⟩
  · simp only [runDreamscape, h1, h2]
  · simp only [runDreamscape, h1, h2, h3]
  · simp only [runDreamscape, h1, h2, h3, List.length_cons, List.length_nil]
  · rw [hgen gameTime dt s hg hs]
    exact ⟨rfl, rfl⟩

end Claims

end DreamKite
